import Mathlib

/-!
Verification development for the DM auto-response orchestration core
(`tools/telethon_collector/respond-dm-pending.py`).

The Python source is shallowly embedded: SQL statements become pure
functions over an explicit list of message rows, module-level environment
constants become functions of the parsed environment value, and float
confidences / costs become exact rationals (the source only compares,
clamps and adds them, and every comparison in the claims is against
configuration constants, so rational arithmetic is a faithful model of
the float computations involved).  Text processing is embedded at the
character-list level.
-/

namespace DmResponder

/-! ## Basic text helpers (`_clean_text`, `_as_text`, strip) -/

/-- Whitespace characters recognised by Python's `\s` for the ASCII texts
involved here. -/
def isWsChar (c : Char) : Bool :=
  c = ' ' || c = '\t' || c = '\n' || c = '\r' || c = '\x0b' || c = '\x0c'

/-- Split a character list into its maximal non-whitespace runs
(auxiliary, accumulator holds the current run reversed). -/
def wordsAux : List Char → List Char → List (List Char)
  | [], acc => if acc.isEmpty then [] else [acc.reverse]
  | c :: rest, acc =>
      if isWsChar c then
        if acc.isEmpty then wordsAux rest [] else acc.reverse :: wordsAux rest []
      else wordsAux rest (c :: acc)

/-- Maximal non-whitespace runs of a character list. -/
def wordsOf (cs : List Char) : List (List Char) := wordsAux cs []

/-- Join words with single spaces. -/
def joinWithSpace : List (List Char) → List Char
  | [] => []
  | [w] => w
  | w :: ws => w ++ ' ' :: joinWithSpace ws

/-- `_clean_text`: collapse whitespace runs to single spaces and strip the
ends (`re.sub(r"\s+", " ", value or "").strip()`). -/
def cleanChars (cs : List Char) : List Char := joinWithSpace (wordsOf cs)

/-- `_clean_text` on `String`. -/
def cleanText (s : String) : String := String.mk (cleanChars s.toList)

/-- `_as_text` restricted to optional strings: `None` stays `None`, a
string is cleaned and empty results are dropped.  (The dict-probing arm of
the source function is not needed: every value reaching it in the embedded
code paths is already a string or absent.) -/
def asText (v : Option String) : Option String :=
  match v with
  | none => none
  | some s => let c := cleanText s; if c = "" then none else some c

/-- `_as_text` on a plain string. -/
def asTextS (s : String) : Option String := asText (some s)

/-- Characters stripped from topic edges: `" .,!?:;\"'`"` . -/
def topicStripChars : List Char :=
  [' ', '.', ',', '!', '?', ':', ';', '"', Char.ofNat 39, Char.ofNat 96]

/-- Python `str.strip(chars)`: drop the characters from both ends. -/
def stripCharsList (cs : List Char) (bad : List Char) : List Char :=
  ((cs.dropWhile (· ∈ bad)).reverse.dropWhile (· ∈ bad)).reverse

/-- `.strip(" .,!?:;\"'`")` used by the topic sanitiser. -/
def stripTopicEdges (s : String) : String :=
  String.mk (stripCharsList s.toList topicStripChars)

/-- Python `s[:n]`. -/
def strTake (s : String) (n : Nat) : String := String.mk (s.toList.take n)

/-- Python `str.join` over a list of parts. -/
def joinSep (sep : String) : List String → String
  | [] => ""
  | [p] => p
  | p :: ps => p ++ sep ++ joinSep sep ps

/-- Lower-case helper (`str.lower()` on the ASCII texts involved),
character by character. -/
def lowerStr (s : String) : String := String.mk (s.toList.map Char.toLower)

/-! ## Configuration constants (C10)

`_env_float(name, default)` returns the parsed value of the variable or
the default when the variable is unset or unparsable; we model its result
by an `Option ℚ` (the successfully parsed value, or `none`). -/

/-- `_env_float`: parsed value or default. -/
def envFloat (parsed : Option ℚ) (default : ℚ) : ℚ := parsed.getD default

/-- `DM_CONTACT_STYLE_AUTO_APPLY_THRESHOLD = min(1.0, max(0.0, _env_float(..., 0.8)))`. -/
def dmContactStyleAutoApplyThreshold (env : Option ℚ) : ℚ :=
  min 1 (max 0 (envFloat env 0.8))

/-- `DM_CONTACT_STYLE_CONFIRM_THRESHOLD = min(AUTO_APPLY, max(0.0, _env_float(..., 0.55)))`. -/
def dmContactStyleConfirmThreshold (envConfirm envAuto : Option ℚ) : ℚ :=
  min (dmContactStyleAutoApplyThreshold envAuto) (max 0 (envFloat envConfirm 0.55))

/-- `style_confidence_band(confidence)`: `None` counts as `0.0`, then the
two thresholds split the scale into `high` / `medium` / `low`. -/
def styleConfidenceBand (confirmThr autoThr : ℚ) (confidence : Option ℚ) : String :=
  let value := confidence.getD 0
  if autoThr ≤ value then "high"
  else if confirmThr ≤ value then "medium"
  else "low"

/-! ## Spend fuse (C6)

The lock file and the state file are process-external; the embedding
exposes the two outcomes the code distinguishes (lock acquired before the
deadline, or timed out) and the stored state that a read under the lock
would observe. -/

/-- Stored spend state as read back from disk: the recorded UTC day and
the recorded running total (`none` models a missing or malformed
`total_cost_usd`, which `_normalized_spend_state` coerces to `0.0`). -/
structure SpendState where
  date : String
  totalCostUsd : Option ℚ
  deriving DecidableEq

/-- Outcome of the bounded wait for the exclusive spend-lock file. -/
inductive SpendLockOutcome where
  | acquired
  | timedOut
  deriving DecidableEq

/-- `_with_openrouter_spend_lock(fn)`: with no positive cap the function
runs unlocked; otherwise it runs only when the lock is acquired before the
deadline, and a timeout yields `None` (fail closed). -/
def withOpenrouterSpendLock (cap : ℚ) (lock : SpendLockOutcome) (result : α) : Option α :=
  if cap ≤ 0 then some result
  else
    match lock with
    | .acquired => some result
    | .timedOut => none

/-- `_normalized_spend_state`: a state recorded for a different day is
replaced by a fresh zeroed state for today; a malformed total is coerced
to `0.0`.  Returns the effective total for today. -/
def normalizedSpendTotal (st : SpendState) (today : String) : ℚ :=
  if st.date = today then st.totalCostUsd.getD 0 else 0

/-- `openrouter_spend_fuse_allows_call()`: with no positive cap the fuse is
disabled; otherwise the check `total < cap` runs under the lock and
`bool(None)` maps a lock timeout to `False`. -/
def openrouterSpendFuseAllowsCall (cap : ℚ) (lock : SpendLockOutcome)
    (stored : SpendState) (today : String) : Bool :=
  if cap ≤ 0 then true
  else
    match withOpenrouterSpendLock cap lock
        (decide (normalizedSpendTotal stored today < cap)) with
    | some b => b
    | none => false

/-- Guard prefix of `call_openrouter_chat`: the call proceeds only when the
LLM is enabled, a key is configured, and the spend fuse allows it. -/
def callOpenrouterChatProceeds (llmEnabled hasKey fuseAllows : Bool) : Bool :=
  llmEnabled && hasKey && fuseAllows

/-! ## The `dm_messages` store and the claim state machine (C1–C4)

One row of `dm_messages`, denormalised with the sender's `users.external_id`
(the SQL join `users u ON u.id = sender_id` is modelled by carrying the
joined column on the row; the foreign key is assumed to resolve).
Timestamps are integers (one unit = one minute, matching the only interval
arithmetic in the source, `recover_stale_sending`). -/

/-- `direction` column. -/
inductive Direction where
  | inbound
  | outbound
  deriving DecidableEq

/-- `response_status` column. -/
inductive RespStatus where
  | pending
  | sending
  | responded
  | failed
  | notApplicable
  deriving DecidableEq

/-- A `dm_messages` row (with the sender's external id joined on). -/
structure Msg where
  id : Nat
  conversationId : Nat
  direction : Direction
  sentAt : Int
  text : String
  senderExternalId : String
  externalMessageId : Option String
  responseStatus : RespStatus
  responseAttempts : Nat
  responseLastError : Option String
  responseAttemptedAt : Option Int
  respondedAt : Option Int
  responseExternalId : Option String
  deriving DecidableEq

/-- The `(sent_at ASC, id ASC)` ordering used by the ranking and
`LIMIT 1` subqueries of the source SQL. -/
def msgOrder (a b : Msg) : Prop :=
  a.sentAt < b.sentAt ∨ (a.sentAt = b.sentAt ∧ a.id ≤ b.id)

instance : DecidableRel msgOrder := fun a b => by
  unfold msgOrder; infer_instance

instance : IsTotal Msg msgOrder :=
  ⟨fun a b => by unfold msgOrder; omega⟩

instance : IsTrans Msg msgOrder :=
  ⟨fun a b c => by unfold msgOrder; omega⟩

/-- `EXISTS (SELECT 1 FROM dm_messages o WHERE o.conversation_id = m.conversation_id
AND o.direction = 'outbound' AND o.sent_at >= m.sent_at)`. -/
def hasLaterOutbound (db : List Msg) (m : Msg) : Bool :=
  db.any fun o =>
    o.conversationId = m.conversationId && o.direction = .outbound && m.sentAt ≤ o.sentAt

/-- The `candidates` filter of `claim_pending`: inbound, `pending` or
`failed`, attempts below `max_retries`, and no outbound reply at or after
the message's send time. -/
def eligiblePending (db : List Msg) (maxRetries : Nat) (m : Msg) : Bool :=
  m.direction = .inbound
    && (m.responseStatus = .pending || m.responseStatus = .failed)
    && m.responseAttempts < maxRetries
    && !(hasLaterOutbound db m)

/-- The row update applied by the `claimed` CTE of `claim_pending`. -/
def claimUpd (now : Int) (m : Msg) : Msg :=
  { m with
    responseStatus := .sending
    responseAttemptedAt := some now
    responseAttempts := m.responseAttempts + 1
    responseLastError := none }

/-- `candidates` CTE: eligible rows ordered by send time (ties broken by
id, a deterministic refinement of the SQL's unspecified tie order),
truncated to `max(limit * 10, limit)`. -/
def claimCandidates (db : List Msg) (limit maxRetries : Nat) : List Msg :=
  (List.insertionSort msgOrder (db.filter (eligiblePending db maxRetries))).take
    (max (limit * 10) limit)

/-- `ROW_NUMBER() OVER (PARTITION BY conversation_id ORDER BY sent_at, id)
... WHERE conversation_rank = 1`: on a list already sorted by
`(sent_at, id)` this keeps the first row of each conversation. -/
def dedupByConv : List Msg → List Nat → List Msg
  | [], _ => []
  | m :: rest, seen =>
      if m.conversationId ∈ seen then dedupByConv rest seen
      else m :: dedupByConv rest (m.conversationId :: seen)

/-- `pending` CTE: rank-1 rows per conversation, ordered by `(sent_at, id)`,
truncated to `limit`. -/
def claimSelected (db : List Msg) (limit maxRetries : Nat) : List Msg :=
  (dedupByConv (claimCandidates db limit maxRetries) []).take limit

/-- `claim_pending(conn, limit, max_retries)`: returns the updated store
and the claimed rows (the `RETURNING`/join output; `id` is the primary
key, so the returned rows are exactly the selected rows after the
update). -/
def claimPending (db : List Msg) (limit maxRetries : Nat) (now : Int) :
    List Msg × List Msg :=
  let sel := claimSelected db limit maxRetries
  let ids : List Nat := sel.map (·.id)
  (db.map fun m => if m.id ∈ ids then claimUpd now m else m,
   sel.map (claimUpd now))

/-- `mark_responded(conn, msg_id, outgoing_external_id)`. -/
def markResponded (db : List Msg) (msgId : Nat) (ext : String) (now : Int) : List Msg :=
  db.map fun m =>
    if m.id = msgId then
      { m with
        responseStatus := .responded
        responseExternalId := some ext
        respondedAt := some now
        responseLastError := none }
    else m

/-- `mark_failed(conn, msg_id, reason)` (the reason is truncated to 2048
characters by the source; the truncation is irrelevant to the claims and
kept as `String.take`). -/
def markFailed (db : List Msg) (msgId : Nat) (reason : String) (now : Int) : List Msg :=
  db.map fun m =>
    if m.id = msgId then
      { m with
        responseStatus := .failed
        responseLastError := some (strTake reason 2048)
        responseAttemptedAt := some now }
    else m

/-- `mark_not_applicable(conn, msg_id, reason)`. -/
def markNotApplicable (db : List Msg) (msgId : Nat) (reason : String) (now : Int) : List Msg :=
  db.map fun m =>
    if m.id = msgId then
      { m with
        responseStatus := .notApplicable
        responseLastError := some (strTake reason 2048)
        responseAttemptedAt := some now }
    else m

/-- `recover_stale_sending(conn, stale_minutes)`: rows stuck in `sending`
whose `response_attempted_at` is older than the threshold are forced to
`failed` (a row with no recorded attempt time is never matched, as SQL
`NULL < x` is not true). -/
def recoverStaleSending (db : List Msg) (staleMinutes now : Int) : List Msg :=
  db.map fun m =>
    if m.responseStatus = .sending
        && (match m.responseAttemptedAt with
            | some t => decide (t < now - staleMinutes)
            | none => false) then
      { m with
        responseStatus := .failed
        responseLastError := some "recovered from stale sending state"
        responseAttemptedAt := some now }
    else m

/-- The qualifying outbound rows of the `JOIN LATERAL` subquery of
`mark_auto_responded` / `mark_responded_from_existing_outbound`. -/
def laterOutbounds (db : List Msg) (m : Msg) : List Msg :=
  db.filter fun o =>
    o.conversationId = m.conversationId && o.direction = .outbound && m.sentAt ≤ o.sentAt

/-- `ORDER BY o.sent_at ASC, o.id ASC LIMIT 1` over the qualifying
outbound rows. -/
def earliestLaterOutbound (db : List Msg) (m : Msg) : Option Msg :=
  (List.insertionSort msgOrder (laterOutbounds db m)).head?

/-- The row update of the reconciliation `UPDATE`: force `responded`,
keeping an existing attribution (`COALESCE`) and otherwise attributing the
matched outbound row. -/
def autoRespondUpd (m o : Msg) : Msg :=
  { m with
    responseStatus := .responded
    responseExternalId := m.responseExternalId <|> o.externalMessageId
    respondedAt := m.respondedAt <|> some o.sentAt
    responseLastError := none }

/-- `mark_auto_responded(conn)`: every inbound row still
`pending`/`failed`/`sending` whose conversation has an outbound row at or
after its send time is force-transitioned to `responded`, attributed to
the earliest such outbound row. -/
def markAutoResponded (db : List Msg) : List Msg :=
  db.map fun m =>
    if m.direction = .inbound
        ∧ (m.responseStatus = .pending ∨ m.responseStatus = .failed
            ∨ m.responseStatus = .sending) then
      match earliestLaterOutbound db m with
      | some o => autoRespondUpd m o
      | none => m
    else m

/-- `mark_responded_from_existing_outbound(conn, msg_id)`: the single-row
variant; returns the updated store and whether a row was updated. -/
def markRespondedFromExistingOutbound (db : List Msg) (msgId : Nat) :
    List Msg × Bool :=
  match db.find? (fun m => m.id = msgId) with
  | none => (db, false)
  | some m =>
      match earliestLaterOutbound db m with
      | none => (db, false)
      | some o =>
          (db.map fun m' => if m'.id = msgId then autoRespondUpd m' o else m', true)

/-! ## Per-batch processing loop of `main()` (C2, C8)

Outbound deliveries go to the messaging platform; the listener process —
not this loop — is what later records outbound rows in `dm_messages`, so a
send does not change the store here beyond the status update of the
inbound row.  Delivery is modelled as always succeeding (a send failure
goes through `mark_failed`, which the state-machine section covers); the
provider-assigned outbound id is an external input, modelled as a function
of the number of sends so far. -/

/-- `parse_external_id(raw)`. -/
def parseExternalId (raw : String) : Option Nat :=
  if raw = "" then none
  else
    let cs := raw.toList
    let r := if cs.take 4 = ['u', 's', 'e', 'r'] then cs.drop 4 else cs
    if !r.isEmpty && r.all (·.isDigit) then
      some (r.foldl (fun n c => n * 10 + (c.toNat - 48)) 0)
    else none

/-- `batch_key = (row['conversation_id'], row['sender_external_id'],
row['sent_at'], text)`. -/
def batchKey (r : Msg) (text : String) : Nat × String × Int × String :=
  (r.conversationId, r.senderExternalId, r.sentAt, text)

/-- The quick re-check before composing: an outbound row in the claimed
row's conversation at or after the inbound row's stored send time. -/
def alreadyAnsweredRecheck (db : List Msg) (r : Msg) : Bool :=
  db.any fun o =>
    o.conversationId = r.conversationId && o.direction = .outbound &&
      (match db.find? (fun m => m.id = r.id) with
       | some m => decide (m.sentAt ≤ o.sentAt)
       | none => false)

/-- The idempotence guard before sending: the exact composed text already
went out in this conversation at or after the inbound row's send time. -/
def dupTextAlreadySent (db : List Msg) (r : Msg) (text : String) : Bool :=
  db.any fun o =>
    o.conversationId = r.conversationId && o.direction = .outbound && o.text = text &&
      (match db.find? (fun m => m.id = r.id) with
       | some m => decide (m.sentAt ≤ o.sentAt)
       | none => false)

/-- How the loop body disposed of one claimed row. -/
inductive RowOutcome where
  | sent
  | skippedAnswered
  | skippedDupBatch
  | skippedDupSent
  | failedRow
  deriving DecidableEq

/-- Loop state: the store, the `dispatched_signatures` set, and the
messages delivered to the platform so far as `(peer, text)` pairs. -/
structure BatchState where
  db : List Msg
  sigs : List (Nat × String × Int × String)
  sends : List (Nat × String)
  deriving DecidableEq

/-- One iteration of the response loop of `main()` over a claimed row. -/
def processRow (compose : Msg → String) (providerId : Nat → String) (now : Int)
    (st : BatchState) (r : Msg) : BatchState × RowOutcome :=
  match parseExternalId r.senderExternalId with
  | none =>
      ({ st with db := markFailed st.db r.id "unparseable recipient id" now }, .failedRow)
  | some peer =>
      if alreadyAnsweredRecheck st.db r then
        let res := markRespondedFromExistingOutbound st.db r.id
        let db3 :=
          if res.2 then res.1
          else markNotApplicable res.1 r.id "already_responded_externally" now
        ({ st with db := db3 }, .skippedAnswered)
      else
        let text := compose r
        let key := batchKey r text
        if key ∈ st.sigs then
          ({ st with db := markNotApplicable st.db r.id "duplicate_text_in_same_batch" now },
           .skippedDupBatch)
        else if dupTextAlreadySent st.db r text then
          ({ st with db := markNotApplicable st.db r.id "duplicate_text_already_sent" now },
           .skippedDupSent)
        else
          ({ db := markResponded st.db r.id (providerId st.sends.length) now
             sigs := key :: st.sigs
             sends := st.sends ++ [(peer, text)] }, .sent)

/-- The response loop of `main()` over the claimed batch, recording each
row's outcome. -/
def processBatch (compose : Msg → String) (providerId : Nat → String) (now : Int)
    (st : BatchState) : List Msg → BatchState × List (Msg × RowOutcome)
  | [] => (st, [])
  | r :: rest =>
      let step := processRow compose providerId now st r
      let restRes := processBatch compose providerId now step.1 rest
      (restRes.1, (r, step.2) :: restRes.2)

/-! ## Reachable store states (C1, C3)

A store state is reachable when it arises from the empty store through the
operations of this file plus the external writers the spec names: the
listener appending fresh inbound rows (always `pending` with zero
attempts) and outbound rows.  `R` fixes the `max_retries` configuration
used by claims; `DmStep` existentially quantifies it. -/

/-- One transition of the store, with claims using `max_retries = R`. -/
inductive DmStepR (R : Nat) : List Msg → List Msg → Prop where
  | newInbound (db : List Msg) (m : Msg) :
      m.direction = .inbound → m.responseStatus = .pending →
      m.responseAttempts = 0 → (∀ m' ∈ db, m'.id ≠ m.id) →
      DmStepR R db (db ++ [m])
  | newOutbound (db : List Msg) (m : Msg) :
      m.direction = .outbound → m.responseAttempts = 0 →
      (∀ m' ∈ db, m'.id ≠ m.id) →
      DmStepR R db (db ++ [m])
  | claim (db : List Msg) (limit : Nat) (now : Int) :
      DmStepR R db (claimPending db limit R now).1
  | respond (db : List Msg) (msgId : Nat) (ext : String) (now : Int) :
      DmStepR R db (markResponded db msgId ext now)
  | failMark (db : List Msg) (msgId : Nat) (reason : String) (now : Int) :
      DmStepR R db (markFailed db msgId reason now)
  | notApplicableMark (db : List Msg) (msgId : Nat) (reason : String) (now : Int) :
      DmStepR R db (markNotApplicable db msgId reason now)
  | recoverStale (db : List Msg) (staleMinutes now : Int) :
      DmStepR R db (recoverStaleSending db staleMinutes now)
  | autoRespond (db : List Msg) :
      DmStepR R db (markAutoResponded db)
  | respondFromExisting (db : List Msg) (msgId : Nat) :
      DmStepR R db (markRespondedFromExistingOutbound db msgId).1

/-- One transition with any `max_retries` configuration. -/
def DmStep (db db' : List Msg) : Prop := ∃ R, DmStepR R db db'

/-- Reachability from the empty store under arbitrary configurations. -/
def DmReachable (db : List Msg) : Prop := Relation.ReflTransGen DmStep [] db

/-- Reachability from the empty store with every claim using
`max_retries = R`. -/
def DmReachableBounded (R : Nat) (db : List Msg) : Prop :=
  Relation.ReflTransGen (DmStepR R) [] db

/-- Invariant I1 violation witness: two distinct inbound rows of one
conversation simultaneously in `sending`. -/
def twoSendingSameConversation (db : List Msg) : Bool :=
  db.any fun a => db.any fun b =>
    a.id ≠ b.id && a.conversationId = b.conversationId &&
    a.direction = .inbound && b.direction = .inbound &&
    a.responseStatus = .sending && b.responseStatus = .sending

/-! ## Anchored phrase matchers

The yes/no/acknowledgement detectors are anchored alternation regexes of
the shape `^\s*(?:alt|...)\s*[.!?]*\s*$`; each alternative is a sequence of
words separated by `\s+`.  They are embedded as exhaustive alternative
lists over a word-sequence matcher (regex alternation with the common
tail is equivalent to trying every alternative). -/

/-- ASCII apostrophe, kept out of string literals. -/
def apos : String := (Char.ofNat 39).toString

/-- Drop leading whitespace. -/
def dropWsChars (cs : List Char) : List Char := cs.dropWhile isWsChar

/-- Consume one expected word (lower-case pattern), case-insensitively. -/
def stripWordCI : List Char → List Char → Option (List Char)
  | cs, [] => some cs
  | [], _ :: _ => none
  | c :: cs, p :: ps => if c.toLower = p then stripWordCI cs ps else none

/-- Consume a phrase: its words in order, separated by one-or-more
whitespace characters (`\s+`). -/
def stripPhraseCI : List Char → List String → Option (List Char)
  | cs, [] => some cs
  | cs, [w] => stripWordCI cs w.toList
  | cs, w :: ws =>
      match stripWordCI cs w.toList with
      | none => none
      | some rest =>
          match rest with
          | [] => none
          | c :: _ => if isWsChar c then stripPhraseCI (dropWsChars rest) ws else none

/-- `^\s*(?:PHRASES)\s*[.!?]*\s*$` against the whole text. -/
def anchoredPhraseMatch (phrases : List (List String)) (text : String) : Bool :=
  let cs := dropWsChars text.toList
  phrases.any fun ph =>
    match stripPhraseCI cs ph with
    | none => false
    | some rest =>
        let rest1 := (dropWsChars rest).dropWhile fun c => c = '.' || c = '!' || c = '?'
        (dropWsChars rest1).isEmpty

/-- Alternatives of `_STYLE_CONFIRM_YES_RE`. -/
def styleConfirmYesPhrases : List (List String) :=
  [["yes"], ["yep"], ["yeah"], ["sure"], ["ok"], ["okay"], ["do", "it"],
   ["switch"], ["confirm"], ["go", "ahead"], ["sounds", "good"], ["works"]]

/-- Alternatives of `_STYLE_CONFIRM_NO_RE` (the optional apostrophe of
`don'?t` and the optional trailer of `keep(...)?` expanded). -/
def styleConfirmNoPhrases : List (List String) :=
  [["no"], ["nah"], ["nope"], ["dont"], ["don" ++ apos ++ "t"], ["do", "not"],
   ["keep"], ["keep", "it"], ["keep", "current"], ["keep", "current", "style"]]

/-- Alternatives of `_ONBOARDING_ACK_RE`. -/
def onboardingAckPhrases : List (List String) :=
  [["yes"], ["yep"], ["yeah"], ["sure"], ["ok"], ["okay"], ["start"],
   ["go", "ahead"], ["lets", "go"], ["let" ++ apos ++ "s", "go"]]

/-- `is_style_confirmation_yes(text)`. -/
def isStyleConfirmationYes (text : String) : Bool :=
  anchoredPhraseMatch styleConfirmYesPhrases text

/-- `is_style_confirmation_no(text)`. -/
def isStyleConfirmationNo (text : String) : Bool :=
  anchoredPhraseMatch styleConfirmNoPhrases text

/-- `is_onboarding_acknowledgement(text)`. -/
def isOnboardingAcknowledgement (text : String) : Bool :=
  anchoredPhraseMatch onboardingAckPhrases text

/-! ## Contact-style state and its confidence-gated mutation (C5)

The style sub-state lives in the per-user profile snapshot; the persist
helpers rewrite its fields and re-parse, which the embedding models as
direct record updates on the parsed state. -/

/-- `STYLE_CONFLICT_RESOLUTION_RULE`. -/
def styleConflictResolutionRule : String := "confidence_gated_last_write_wins"

/-- A pending style candidate awaiting explicit confirmation. -/
structure PendingCandidate where
  value : String
  confidence : Option ℚ
  source : Option String
  sourceMessageId : Option Nat
  proposedAt : Option Int
  deriving DecidableEq

/-- One rolling-history entry. -/
structure StyleHistEntry where
  value : String
  updatedAt : Option Int
  confidence : Option ℚ
  source : Option String
  sourceMessageId : Option Nat
  deriving DecidableEq

/-- The parsed `style_preference` sub-state
(`_parse_contact_style_state_from_snapshot`). -/
structure StyleState where
  value : Option String
  updatedAt : Option Int
  confidence : Option ℚ
  source : Option String
  sourceMessageId : Option Nat
  reconfirmPromptedAt : Option Int
  resolutionRule : String
  pendingCandidate : Option PendingCandidate
  history : List StyleHistEntry
  deriving DecidableEq

/-- `_default_contact_style_state()`. -/
def defaultContactStyleState : StyleState :=
  { value := none, updatedAt := none, confidence := none, source := none
    sourceMessageId := none, reconfirmPromptedAt := none
    resolutionRule := styleConflictResolutionRule
    pendingCandidate := none, history := [] }

/-- Python `list[-12:]`. -/
def lastN (l : List α) (n : Nat) : List α := l.drop (l.length - n)

/-- `persist_contact_style_state`: activate a style value, append to the
rolling history, clear any pending candidate, and reset the
reconfirmation stamp when the value actually changed. -/
def persistContactStyleState (st : StyleState) (styleValue : Option String)
    (source : String) (confidence : Option ℚ) (sourceMessageId : Option Nat)
    (now : Int) : StyleState :=
  match asText styleValue with
  | none => st
  | some nv =>
      let entry : StyleHistEntry :=
        { value := nv, updatedAt := some now, confidence := confidence
          source := some source, sourceMessageId := sourceMessageId }
      { value := some nv
        updatedAt := some now
        confidence := match confidence with | some c => some c | none => st.confidence
        source := some source
        sourceMessageId := sourceMessageId
        resolutionRule := styleConflictResolutionRule
        pendingCandidate := none
        reconfirmPromptedAt :=
          match asText st.value with
          | some pv => if lowerStr pv ≠ lowerStr nv then none else st.reconfirmPromptedAt
          | none => st.reconfirmPromptedAt
        history := lastN (st.history ++ [entry]) 12 }

/-- `persist_pending_contact_style_candidate`: store (overwrite) the
pending candidate without touching the active value. -/
def persistPendingContactStyleCandidate (st : StyleState) (styleValue : Option String)
    (source : String) (confidence : Option ℚ) (sourceMessageId : Option Nat)
    (proposedAt : Int) : StyleState :=
  match asText styleValue with
  | none => st
  | some nv =>
      { st with
        resolutionRule := styleConflictResolutionRule
        pendingCandidate := some
          { value := nv, confidence := confidence, source := some source
            sourceMessageId := sourceMessageId, proposedAt := some proposedAt } }

/-- `clear_pending_contact_style_candidate`. -/
def clearPendingContactStyleCandidate (st : StyleState) : StyleState :=
  { st with pendingCandidate := none }

/-- `render_style_confirmation_prompt(style_value, confidence)`. -/
def renderStyleConfirmationPrompt (confirmThr autoThr : ℚ) (styleValue : String)
    (confidence : Option ℚ) : String :=
  let band := styleConfidenceBand confirmThr autoThr confidence
  let pre :=
    if band = "medium" then
      "Quick note: I can remember how you want me to write. I detected \"" ++
        styleValue ++ "\"."
    else
      "Quick note: I might have misread this as a style request (\"" ++
        styleValue ++ "\")."
  pre ++ " Want me to switch to that style? Reply yes or no."

/-- How the style-handling step of `render_response` disposed of the turn. -/
inductive StyleOutcome where
  | confirmedSwitch (value : String)
  | declinedSwitch
  | autoApplied (value : String) (confidence : ℚ)
  | pendingPrompt (value : String) (confidence : ℚ) (prompt : String)
  | noStyleAction
  deriving DecidableEq

/-- The `current_style_update` half of the step (`render_response` after
the pending-candidate block): feedback and help/capability turns suppress
the update; an absent event confidence defaults to `0.62`; at or above the
auto-apply threshold the value is activated directly, otherwise it is
stored as a pending candidate and a confirmation prompt is rendered. -/
def styleStepUpdatePart (confirmThr autoThr : ℚ) (st : StyleState)
    (styleUpdateRaw : Option String) (evtConfidence : Option ℚ)
    (implicitFeedback helpRequest capabilitiesRequest : Bool)
    (msgId : Option Nat) (now : Int) : StyleState × StyleOutcome :=
  let u0 := asText styleUpdateRaw
  let u1 := if implicitFeedback then none else u0
  let u2 := if helpRequest || capabilitiesRequest then none else u1
  match u2 with
  | none => (st, .noStyleAction)
  | some u =>
      let conf := evtConfidence.getD 0.62
      if autoThr ≤ conf then
        (persistContactStyleState st (some u) "dm_responder" (some conf) msgId now,
         .autoApplied u conf)
      else
        (persistPendingContactStyleCandidate st (some u) "dm_responder_low_confidence"
           (some conf) msgId now,
         .pendingPrompt u conf (renderStyleConfirmationPrompt confirmThr autoThr u (some conf)))

/-- The style-handling step of `render_response` (pending-candidate
confirmation first, then the current-message style update; when the
pending candidate exists but the turn is neither an affirmative nor a
negative reply, control falls through to the update half, as in the
source). -/
def renderResponseStyleStep (confirmThr autoThr : ℚ) (st : StyleState)
    (latestText : String) (styleUpdateRaw : Option String) (evtConfidence : Option ℚ)
    (implicitFeedback helpRequest capabilitiesRequest : Bool)
    (msgId : Option Nat) (now : Int) : StyleState × StyleOutcome :=
  match st.pendingCandidate.bind (fun pc => (asTextS pc.value).map fun v => (pc, v)) with
  | some (pc, pv) =>
      if isStyleConfirmationYes latestText then
        (persistContactStyleState st (some pv) "user_style_confirmation" pc.confidence
           msgId now,
         .confirmedSwitch pv)
      else if isStyleConfirmationNo latestText then
        (clearPendingContactStyleCandidate st, .declinedSwitch)
      else
        styleStepUpdatePart confirmThr autoThr st styleUpdateRaw evtConfidence
          implicitFeedback helpRequest capabilitiesRequest msgId now
  | none =>
      styleStepUpdatePart confirmThr autoThr st styleUpdateRaw evtConfidence
        implicitFeedback helpRequest capabilitiesRequest msgId now

/-! ## Word-bounded phrase search (`\b...\b` regex alternations)

The feedback-topic filter and separator detection search for alternatives
delimited by `\b`.  Every alternative starts and ends with a word
character, so a match is an occurrence whose neighbouring characters (when
present) are not word characters.  The texts these run on are already
whitespace-collapsed, so `\s+` inside an alternative is a single space. -/

/-- Python `\w` over the ASCII texts involved. -/
def isWordChar (c : Char) : Bool := c.isAlpha || c.isDigit || c = '_'

/-- Literal prefix match returning the remainder. -/
def matchesAt : List Char → List Char → Option (List Char)
  | cs, [] => some cs
  | [], _ :: _ => none
  | c :: cs, p :: ps => if c = p then matchesAt cs ps else none

/-- Scan for a word-bounded occurrence of `pat` (`prev` is the character
before the current position). -/
def cwbAux (pat : List Char) : Option Char → List Char → Bool
  | prev, [] =>
      (match prev with | some p => !isWordChar p | none => true) && pat.isEmpty
  | prev, c :: rest =>
      ((match prev with | some p => !isWordChar p | none => true) &&
        (match matchesAt (c :: rest) pat with
         | some [] => true
         | some (d :: _) => !isWordChar d
         | none => false)) ||
      cwbAux pat (some c) rest

/-- Case-insensitive word-bounded search for a lower-case pattern. -/
def containsPhraseWordCI (text pat : String) : Bool :=
  cwbAux pat.toList none (lowerStr text).toList

/-- Unbounded substring search (Python `in`), case-sensitive. -/
def containsSubstrAux (pat : List Char) : List Char → Bool
  | [] => (matchesAt ([] : List Char) pat).isSome
  | c :: rest => (matchesAt (c :: rest) pat).isSome || containsSubstrAux pat rest

/-- Python `pat in s`. -/
def containsSubstr (s pat : String) : Bool := containsSubstrAux pat.toList s.toList

/-! ## Topic sanitisation (`looks_like_feedback_topic`, `sanitize_notable_topics`) -/

/-- The alternatives of `_FEEDBACKY_TOPIC_RE` (searched on cleaned text,
so `\s+` is one space; the optional apostrophe of `i'?m` expanded). -/
def feedbackyTopicPhrases : List String :=
  ["onboarding", "you asked", "asked me", "same question", "same questions",
   "again", "repeat", "repeating", "stop asking",
   "no idea what that means", "i want to know what", "what do you mean",
   "what does this mean", "what does that mean",
   "im confused", "i" ++ apos ++ "m confused", "this is confusing",
   "fragmented", "clunky",
   "what is the process", "why am i doing this", "what does this do"]

/-- Python `str.strip()` (whitespace). -/
def stripWs (s : String) : String := String.mk (stripCharsList s.toList [] |>.dropWhile isWsChar |>.reverse |>.dropWhile isWsChar |>.reverse)

/-- Python `len(s.split())`: number of whitespace-separated words. -/
def wsWordCount (s : String) : Nat := (wordsOf s.toList).length

/-- `looks_like_feedback_topic(value)`. -/
def looksLikeFeedbackTopic (value : String) : Bool :=
  let clean := stripTopicEdges (cleanText value)
  if clean = "" then false
  else if clean.toList.contains '?' then true
  else if feedbackyTopicPhrases.any (containsPhraseWordCI clean) then true
  else
    -- `re.search(r",|;|\n|\band\b|&", clean)`; the text is cleaned, so no
    -- newline can occur.
    let hasSep := clean.toList.contains ',' || clean.toList.contains ';' ||
      clean.toList.contains '\n' || containsPhraseWordCI clean "and" ||
      clean.toList.contains '&'
    if !hasSep && wsWordCount clean > 14 then true else false

/-- `_to_string_list` restricted to a list of plain strings (the shape
stored topic lists take in the embedded states): clean each entry, drop
empties, deduplicate exactly, and stop at the cap.  The source's
re-parsing of strings that look like JSON payloads (leading `[` or `{`)
is not modelled; no embedded topic value takes that shape. -/
def toStringListOfStrings (l : List String) (maxItems : Nat) : List String :=
  l.foldl
    (fun out item =>
      if out.length ≥ maxItems then out
      else
        let c := cleanText item
        if c ≠ "" && c ∉ out then out ++ [c] else out)
    []

/-- `sanitize_notable_topics(value, max_items)`. -/
def sanitizeNotableTopics (value : List String) (maxItems : Nat) : List String :=
  (toStringListOfStrings value (maxItems * 3)).foldl
    (fun out item =>
      if out.length ≥ maxItems then out
      else
        let clean := stripTopicEdges (cleanText item)
        if clean = "" then out
        else if looksLikeFeedbackTopic clean then out
        else if lowerStr clean ∈ out.map lowerStr then out
        else out ++ [clean])
    []

/-! ## Profile layers and aggregation (C7)

The per-user profile view, restricted to the fields the merge chain of
`render_response` reads and writes. -/

/-- The aggregated profile view (`fetch_latest_profile` output plus the
overlay fields written by the merge helpers). -/
structure Profile where
  primaryRole : Option String
  primaryCompany : Option String
  preferredContactStyle : Option String
  notableTopics : List String
  contactStyleUpdatedAt : Option Int
  contactStyleConfidence : Option ℚ
  contactStyleSource : Option String
  contactStyleResolutionRule : Option String
  contactStyleReconfirmPromptedAt : Option Int
  contactStylePendingCandidate : Option PendingCandidate
  deriving DecidableEq

/-- `merge_contact_style_state_into_profile(profile, style_state)`. -/
def mergeContactStyleStateIntoProfile (p : Profile) (st : StyleState) : Profile :=
  let p1 :=
    match asText st.value with
    | some v => { p with preferredContactStyle := some v }
    | none => p
  { p1 with
    contactStyleUpdatedAt := st.updatedAt
    contactStyleConfidence := st.confidence
    contactStyleSource := st.source
    contactStyleResolutionRule :=
      some (if st.resolutionRule = "" then styleConflictResolutionRule else st.resolutionRule)
    contactStyleReconfirmPromptedAt := st.reconfirmPromptedAt
    contactStylePendingCandidate := st.pendingCandidate }

/-- The parsed durable overrides (`_parse_profile_overrides_from_snapshot`
output shape). -/
structure ProfileOverrides where
  primaryRole : Option String
  primaryCompany : Option String
  notableTopics : List String
  deriving DecidableEq

/-- `if not overrides:` — the parsed override dict is empty. -/
def overridesIsEmpty (ov : ProfileOverrides) : Bool :=
  ov.primaryRole.isNone && ov.primaryCompany.isNone && ov.notableTopics.isEmpty

/-- `merge_profile_overrides_into_profile(profile, overrides)`. -/
def mergeProfileOverridesIntoProfile (p : Profile) (ov : ProfileOverrides) : Profile :=
  if overridesIsEmpty ov then p
  else
    let m1 :=
      match asText ov.primaryRole with
      | some r => { p with primaryRole := some r }
      | none => p
    let m2 :=
      match asText ov.primaryCompany with
      | some c => { m1 with primaryCompany := some c }
      | none => m1
    let overrideTopics := sanitizeNotableTopics ov.notableTopics 10
    if overrideTopics.isEmpty then m2
    else
      let base := sanitizeNotableTopics m2.notableTopics 10
      let merged := overrideTopics.foldl
        (fun (acc : List String × List String) t =>
          if acc.1.length ≥ 10 then acc
          else if lowerStr t ∈ acc.2 then acc
          else (acc.1 ++ [strTake t 80], acc.2 ++ [lowerStr t]))
        (base, base.map lowerStr)
      { m2 with notableTopics := merged.1.take 10 }

/-- One entry of an event's `extracted_facts` list. -/
structure ExtractedFact where
  field : String
  newValue : Option String
  confidence : Option ℚ
  deriving DecidableEq

/-- One unprocessed `dm_profile_update_events` row (an absent
`extractedFacts` models a non-list payload, which the source skips). -/
structure PendingEvent where
  id : Nat
  sourceMessageId : Option Nat
  confidence : Option ℚ
  extractedFacts : Option (List ExtractedFact)
  deriving DecidableEq

/-- The per-fact body of the loop in `apply_pending_profile_events`
(state: the profile under construction, the topic list, and the
lower-cased topic keys seen so far). -/
def applyFactStep (acc : Profile × List String × List String)
    (fact : ExtractedFact) : Profile × List String × List String :=
  let field := stripWs fact.field
  match asText fact.newValue with
  | none => acc
  | some nv =>
      if field = "primary_company" then
        ({ acc.1 with primaryCompany := some nv }, acc.2.1, acc.2.2)
      else if field = "primary_role" then
        ({ acc.1 with primaryRole := some nv }, acc.2.1, acc.2.2)
      else if field = "preferred_contact_style" then acc
      else if field = "notable_topics" then
        if looksLikeFeedbackTopic nv then acc
        else if lowerStr nv ∈ acc.2.2 then acc
        else (acc.1, acc.2.1 ++ [nv], acc.2.2 ++ [lowerStr nv])
      else acc

/-- `apply_pending_profile_events(profile, events)`. -/
def applyPendingProfileEvents (p : Profile) (events : List PendingEvent) : Profile :=
  if events.isEmpty then p
  else
    let topics0 := sanitizeNotableTopics p.notableTopics 10
    let res := events.foldl
      (fun acc evt =>
        match evt.extractedFacts with
        | none => acc
        | some facts => facts.foldl applyFactStep acc)
      (p, topics0, topics0.map lowerStr)
    { res.1 with notableTopics := res.2.1.take 10 }

/-- The profile-aggregation prefix of `render_response` (base profile,
then the style overlay, then the durable overrides — falling back to the
reconciler row when the snapshot overlay is absent — then the
pending-event overlay). -/
def aggregateProfile (base : Profile) (st : StyleState)
    (snapshotOverrides reconcilerOverrides : ProfileOverrides)
    (events : List PendingEvent) : Profile :=
  let p1 := mergeContactStyleStateIntoProfile base st
  let ov := if overridesIsEmpty snapshotOverrides then reconcilerOverrides
            else snapshotOverrides
  let p2 := mergeProfileOverridesIntoProfile p1 ov
  applyPendingProfileEvents p2 events

/-! ## Onboarding slot machine (C9) -/

/-- Right single quotation mark used by the source reply strings. -/
def rsq : String := (Char.ofNat 8217).toString

/-- `ONBOARDING_REQUIRED_FIELDS`. -/
def onboardingRequiredFields : List String :=
  ["primary_role", "primary_company", "notable_topics", "preferred_contact_style"]

/-- `ONBOARDING_SLOT_QUESTIONS` (dict lookup; unknown slots yield `[]`,
matching `dict.get`). -/
def onboardingSlotQuestions (slot : String) : List String :=
  if slot = "primary_role" then
    ["What title should I store for you right now?",
     "What role best describes what you do day to day right now?"]
  else if slot = "primary_company" then
    ["What company, project, or current status should I map you to?",
     "What org/project are you currently focused on?"]
  else if slot = "notable_topics" then
    ["What are your top 2 priorities right now?",
     "What 2-3 focus areas should I tag (for example: grants, partnerships, pre-TGE chains)?"]
  else if slot = "preferred_contact_style" then
    ["How should I communicate with you: concise bullets, detailed notes, or quick back-and-forth?",
     "What response style do you prefer from me?"]
  else []

/-- `_pick(options, seed)`. -/
def pick (options : List String) (seed : Nat) : String :=
  if options.isEmpty then "" else options.getD (seed % options.length) ""

/-- `_onboarding_slot_prompt(slot, seed)`. -/
def onboardingSlotPrompt (slot : String) (seed : Nat) : String :=
  let options := onboardingSlotQuestions slot
  pick (if options.isEmpty then onboardingSlotQuestions "primary_role" else options) seed

/-- The profile value stored under a required-field name. -/
def profileGetText (p : Profile) (slot : String) : Option String :=
  if slot = "primary_role" then p.primaryRole
  else if slot = "primary_company" then p.primaryCompany
  else if slot = "preferred_contact_style" then p.preferredContactStyle
  else none

/-- `_slot_has_value(profile, slot)`. -/
def slotHasValue (p : Profile) (slot : String) : Bool :=
  if slot = "notable_topics" then !p.notableTopics.isEmpty
  else (asText (profileGetText p slot)).isSome

/-- `_compute_missing_onboarding_fields(profile, required_fields)`. -/
def computeMissingOnboardingFields (p : Profile) (required : List String) : List String :=
  required.filter fun slot => !slotHasValue p slot

/-- `_count_core_profile_slots(profile)`. -/
def countCoreProfileSlots (p : Profile) : Nat :=
  (onboardingRequiredFields.filter fun slot => slotHasValue p slot).length

/-- Per-user onboarding progress (`_default_onboarding_state` shape). -/
structure OnboardingState where
  status : String
  requiredFields : List String
  missingFields : List String
  lastPromptedField : Option String
  startedAt : Option Int
  completedAt : Option Int
  turns : Nat
  deriving DecidableEq

/-- `_format_captured_updates_summary(captured_updates)`. -/
def formatCapturedUpdatesSummary (captured : List (String × String)) : String :=
  let part (key : String) (f : String → String) : List String :=
    match captured.lookup key with
    | some v => if v = "" then [] else [f v]
    | none => []
  let parts :=
    part "primary_company" (fun c =>
      if lowerStr c = "unemployed" then "company/status -> unemployed"
      else "company -> " ++ c) ++
    part "primary_role" (fun r => "role -> " ++ r) ++
    part "preferred_contact_style" (fun s => "communication style -> " ++ s) ++
    part "notable_topics" (fun t => "priority/topic -> " ++ t)
  if parts.isEmpty then "profile updates" else joinSep "; " parts

/-- `_onboarding_intro(sender, persona_name, done_count, total_count)`. -/
def onboardingIntro (sender personaName : String) (done total : Nat) : String :=
  if done = 0 then
    "Hey " ++ sender ++ " — I" ++ rsq ++ "m " ++ personaName ++
      ", an AI assistant (not a human).\n" ++
    "I help you keep your profile accurate so responses and suggestions stay relevant.\n" ++
    "Let" ++ rsq ++ "s do a quick " ++ toString total ++ "-step onboarding."
  else
    "Great, quick profile check-in: " ++ toString done ++ "/" ++ toString total ++
      " fields captured."

/-- The prompting tail of `render_onboarding_flow_reply` (the section after
the completion branch, reached while collecting with a non-empty missing
list): pick the next slot — the first missing field, except that an
acknowledgement repeats the slot last prompted when it is still
missing — render the appropriate body, and advance the state. -/
def onboardingPromptTail (state : OnboardingState)
    (requiredFields missingFields : List String)
    (capturedUpdates : List (String × String)) (latestText : String)
    (isGreeting startRequested : Bool) (msgId : Nat)
    (sender personaName : String) (now : Int) : String × OnboardingState :=
  let total := requiredFields.length
  let done := total - missingFields.length
  let lastPrompted := (state.lastPromptedField.bind asTextS)
  let nextSlot :=
    if isOnboardingAcknowledgement latestText
        && (match lastPrompted with
            | some lp => decide (lp ∈ missingFields)
            | none => false) then
      lastPrompted.getD (missingFields.headD "")
    else missingFields.headD ""
  let prompt := onboardingSlotPrompt nextSlot (msgId + done + state.turns)
  let body :=
    if !capturedUpdates.isEmpty then
      "Captured: " ++ formatCapturedUpdatesSummary capturedUpdates ++ ".\n" ++
      "Progress: " ++ toString done ++ "/" ++ toString total ++ " fields captured.\n" ++
      "Step " ++ toString (done + 1) ++ "/" ++ toString total ++ ": " ++ prompt
    else if state.turns = 0 || startRequested then
      let intro := onboardingIntro sender personaName done total
      if done = 0 then
        intro ++ "\n" ++
        (if isGreeting then "Nice to meet you." else "Let" ++ rsq ++ "s get you set up.") ++
        "\n" ++
        "Step 1/" ++ toString total ++ ": " ++ prompt ++ "\n" ++
        "Quick format you can paste:\n" ++
        "role: ...\ncompany: ...\npriorities: ...\ncommunication: ...\n" ++
        "Tip: You can also type naturally, like \"I moved to X\" or \"My focus is Y\"."
      else
        intro ++ "\n" ++
        "Step " ++ toString (done + 1) ++ "/" ++ toString total ++ ": " ++ prompt
    else
      "Quick onboarding check (" ++ toString done ++ "/" ++ toString total ++
        " captured).\n" ++
      "Step " ++ toString (done + 1) ++ "/" ++ toString total ++ ": " ++ prompt
  (body,
   { state with
     status := "collecting"
     startedAt := state.startedAt <|> some now
     completedAt := none
     lastPromptedField := some nextSlot
     turns := state.turns + 1
     missingFields := missingFields })

/-! ## Plain topic-list answers (`_split_plain_topics_answer`) -/

/-- A word-bounded `and` (case-insensitive) starts here: three matching
letters followed by a non-word character or the end. -/
def andSepAt : List Char → Bool
  | a :: n :: d :: r =>
      a.toLower = 'a' && n.toLower = 'n' && d.toLower = 'd' &&
      (match r with | [] => true | e :: _ => !isWordChar e)
  | _ => false

/-- Split on the separator pattern `,|;|\n|\band\b|&` (case-insensitive),
scanning left to right; `prev` is the character before the current
position for the `\b` checks. -/
def splitTopicSepsAux : Option Char → List Char → List Char → List (List Char)
  | _, acc, [] => [acc.reverse]
  | prev, acc, c :: rest =>
      if c = ',' || c = ';' || c = '\n' || c = '&' then
        acc.reverse :: splitTopicSepsAux (some c) [] rest
      else if (match prev with | some p => !isWordChar p | none => true) &&
          andSepAt (c :: rest) then
        acc.reverse :: splitTopicSepsAux (some (rest.getD 1 'd')) [] (rest.drop 2)
      else splitTopicSepsAux (some c) (c :: acc) rest
termination_by _ _ cs => cs.length
decreasing_by
  all_goals simp only [List.length_cons, List.length_drop]
  all_goals omega

/-- `re.split(r",|;|\n|\band\b|&", source)`. -/
def splitTopicSeps (s : String) : List String :=
  (splitTopicSepsAux none [] s.toList).map String.mk

/-- The keyword and verb lists of the prefix pattern
`^(?:my\s+)?(?:priorities?|focus|topics?)\s*(?:are|is)\s+` (`priorities?`
is the literal `prioritie` with an optional `s`). -/
def topicPrefixKeywords : List String :=
  ["priorities", "prioritie", "focus", "topics", "topic"]

/-- Try `KEYWORD \s* (are|is) \s+` at the head, returning the remainder. -/
def stripTopicKeywordTail (cs : List Char) : Option (List Char) :=
  (topicPrefixKeywords.map fun kw =>
      match stripWordCI cs kw.toList with
      | none => none
      | some rest =>
          let rest2 := dropWsChars rest
          (["are", "is"].map fun verb =>
              match stripWordCI rest2 verb.toList with
              | none => none
              | some rest3 =>
                  match rest3 with
                  | c :: _ => if isWsChar c then some (dropWsChars rest3) else none
                  | [] => none).firstM id
    ).firstM id

/-- `re.sub(r"^(?:my\s+)?(?:priorities?|focus|topics?)\s*(?:are|is)\s+", "", clean)`. -/
def stripTopicPrefixPhrase (s : String) : String :=
  let cs := s.toList
  let withMy : Option (List Char) :=
    match stripWordCI cs "my".toList with
    | some (c :: rest) =>
        if isWsChar c then stripTopicKeywordTail (dropWsChars (c :: rest)) else none
    | _ => none
  match withMy with
  | some r => String.mk r
  | none =>
      match stripTopicKeywordTail cs with
      | some r => String.mk r
      | none => s

/-- The short confirmation words rejected as topic lists. -/
def plainAnswerStopWords : List String :=
  ["yes", "yep", "yeah", "no", "nah", "nope", "ok", "okay", "sure", "k", "cool"]

/-- `_split_plain_topics_answer(text)`. -/
def splitPlainTopicsAnswer (text : String) : List String :=
  let source := stripWs (cleanText text)
  if source = "" then []
  else if source.length > 220 then []
  else if looksLikeFeedbackTopic source then []
  else
    let parts := splitTopicSeps source
    let hasSep := parts.length > 1
    if !hasSep && wsWordCount source > 8 then []
    else if stripTopicEdges (lowerStr source) ∈ plainAnswerStopWords then []
    else
      (parts.foldl
        (fun (acc : List String × List String) part =>
          if acc.1.length ≥ 6 then acc
          else
            let clean0 := stripTopicEdges (cleanText part)
            if clean0 = "" then acc
            else
              let clean := stripWs (stripTopicPrefixPhrase clean0)
              if clean.length < 2 then acc
              else if looksLikeFeedbackTopic clean then acc
              else if lowerStr clean ∈ acc.2 then acc
              else (acc.1 ++ [strTake clean 80], acc.2 ++ [lowerStr clean]))
        ([], [])).1

/-- The captured-update overlay of `render_onboarding_flow_reply` (lines
applying `captured_updates` to the in-memory profile view so onboarding
progress does not loop while ingestion lags). -/
def applyCapturedUpdatesToProfile (profile : Profile)
    (captured : List (String × String)) : Profile :=
  if captured.isEmpty then profile
  else
    let role := asText (captured.lookup "primary_role")
    let company := asText (captured.lookup "primary_company")
    let topicsRaw := asText (captured.lookup "notable_topics")
    let p1 :=
      match role with
      | some r => { profile with primaryRole := some r }
      | none => profile
    let p2 :=
      match company with
      | some c => { p1 with primaryCompany := some c }
      | none => p1
    match topicsRaw with
    | none => p2
    | some tr =>
        let topics0 := splitPlainTopicsAnswer tr
        let topics :=
          if !topics0.isEmpty then topics0
          else
            let cleaned :=
              String.mk (stripCharsList
                (stripCharsList (cleanText tr).toList [' ', '"', Char.ofNat 39, Char.ofNat 96])
                [' ', '.', ',', '!', '?', ':', ';'])
            if cleaned ≠ "" && !looksLikeFeedbackTopic cleaned then [strTake cleaned 80]
            else []
        if topics.isEmpty then p2
        else
          let existing := sanitizeNotableTopics p2.notableTopics 10
          let merged := topics.foldl
            (fun (acc : List String × List String) t =>
              if lowerStr t ∈ acc.2 then acc
              else (acc.1 ++ [t], acc.2 ++ [lowerStr t]))
            (existing, existing.map lowerStr)
          { p2 with notableTopics := merged.1.take 10 }

/-! ## Inline `field: value` updates

The line-parsing stage of `_extract_inline_profile_updates` (the loop over
`^([A-Za-z][A-Za-z _-]{1,24})\s*:\s*(.+)$` matches).  The later free-form
fallback extractors of that function only add fields the loop did not
capture and fire only on their trigger phrases (`my role is …`,
`company is …`, `unemployed`, focus/priority phrases, contact-style
keywords); texts of the plain `key: value` shape used by the onboarding
scenario contain none of those triggers, so on them this stage is the
whole function. -/

/-- Key characters `[A-Za-z _-]`. -/
def fieldKeyChar (c : Char) : Bool := c.isAlpha || c = ' ' || c = '_' || c = '-'

/-- Match `^([A-Za-z][A-Za-z _-]{1,24})\s*:\s*(.+)$` against one stripped
line, returning the normalised key (`strip().lower().replace('_', ' ')`)
and the cleaned value. -/
def lineFieldValue (line : String) : Option (String × String) :=
  let cs := line.toList
  let pre := cs.takeWhile (· ≠ ':')
  if pre.length = cs.length then none
  else
    let core := (pre.reverse.dropWhile isWsChar).reverse
    let trailingSpaces := ((cs.take pre.length).drop core.length).takeWhile (· = ' ')
    match core with
    | [] => none
    | c0 :: _ =>
        if !c0.isAlpha then none
        else if !core.all fieldKeyChar then none
        else if core.length > 25 then none
        else if core.length + trailingSpaces.length < 2 then none
        else
          let key := String.mk
            ((core.map Char.toLower).map fun c => if c = '_' then ' ' else c)
          let value := cleanText (String.mk (cs.drop (pre.length + 1)))
          if value = "" then none else some (key, value)

/-- `'unemployed' if 'unemployed' in value.lower() else value`. -/
def normalizeCompanyValue (value : String) : String :=
  if containsSubstr (lowerStr value) "unemployed" then "unemployed" else value

/-- Python `splitlines` followed by `strip` and the non-empty filter, for
the line-break characters that occur in these texts. -/
def strippedLines (text : String) : List String :=
  ((text.toList.splitOnP fun c => c = '\n' || c = '\r' || c = '\x0b' || c = '\x0c').map
      fun cs => stripWs (String.mk cs)).filter (· ≠ "")

/-- `updates[key] = value` on an association list. -/
def upsertAssoc (l : List (String × String)) (k v : String) : List (String × String) :=
  if (l.lookup k).isSome then l.map fun p => if p.1 = k then (k, v) else p
  else l ++ [(k, v)]

/-- The line-parse loop of `_extract_inline_profile_updates`. -/
def inlineFieldValueLineUpdates (text : String) : List (String × String) :=
  (strippedLines text).foldl
    (fun upd line =>
      match lineFieldValue line with
      | none => upd
      | some (key, value) =>
          if key ∈ ["role", "title", "position", "job"] then
            upsertAssoc upd "primary_role" value
          else if key ∈ ["company", "project", "employer", "organization", "org"] then
            upsertAssoc upd "primary_company" (normalizeCompanyValue value)
          else if key ∈ ["priorities", "priority", "focus", "topics", "topic"] then
            upsertAssoc upd "notable_topics" value
          else if key ∈ ["communication", "style", "communication style",
              "preferred communication", "contact style"] then
            upsertAssoc upd "preferred_contact_style" value
          else upd)
    []

/-! ## Specification-side helpers

These definitions restate parts of the claims in generic terms (they are
not translations of source functions); theorems compare the embedded
functions against them. -/

/-- `_empty_profile()` restricted to the embedded fields. -/
def emptyProfile : Profile :=
  { primaryRole := none, primaryCompany := none, preferredContactStyle := none
    notableTopics := [], contactStyleUpdatedAt := none, contactStyleConfidence := none
    contactStyleSource := none, contactStyleResolutionRule := none
    contactStyleReconfirmPromptedAt := none, contactStylePendingCandidate := none }

/-- An empty parsed-overrides record. -/
def emptyOverrides : ProfileOverrides :=
  { primaryRole := none, primaryCompany := none, notableTopics := [] }

/-- The last valid value any pending event proposes for a scalar field
(later events win). -/
def lastFactValue (events : List PendingEvent) (field : String) : Option String :=
  events.foldl
    (fun acc evt =>
      match evt.extractedFacts with
      | none => acc
      | some facts =>
          facts.foldl
            (fun a f =>
              if stripWs f.field = field then
                match asText f.newValue with
                | some v => some v
                | none => a
              else a)
            acc)
    none

/-- Case-insensitive union: fold `extra` onto `base`, skipping entries
whose lower-cased form was already seen and storing `f t` for a fresh
entry `t`. -/
def ciUnionBy (f : String → String) (base extra : List String) : List String :=
  (extra.foldl
    (fun (acc : List String × List String) t =>
      if lowerStr t ∈ acc.2 then acc
      else (acc.1 ++ [f t], acc.2 ++ [lowerStr t]))
    (base, base.map lowerStr)).1

/-- Case-insensitive union capped at `cap` entries (no further entries are
added once the cap is reached), truncated to `cap`. -/
def ciUnionCappedBy (f : String → String) (cap : Nat) (base extra : List String) :
    List String :=
  ((extra.foldl
    (fun (acc : List String × List String) t =>
      if acc.1.length ≥ cap then acc
      else if lowerStr t ∈ acc.2 then acc
      else (acc.1 ++ [f t], acc.2 ++ [lowerStr t]))
    (base, base.map lowerStr)).1).take cap

/-- The topic values the pending events contribute, in order: valid
`notable_topics` facts whose value passes the feedback filter. -/
def topicFactValues (events : List PendingEvent) : List String :=
  events.flatMap fun evt =>
    match evt.extractedFacts with
    | none => []
    | some facts =>
        facts.filterMap fun fct =>
          if stripWs fct.field = "notable_topics" then
            match asText fct.newValue with
            | some nv => if looksLikeFeedbackTopic nv then none else some nv
            | none => none
          else none

/-- The batch signatures of the rows a batch run actually sent. -/
def sentKeys (compose : Msg → String) (outs : List (Msg × RowOutcome)) :
    List (Nat × String × Int × String) :=
  (outs.filter fun p => p.2 = RowOutcome.sent).map fun p => batchKey p.1 (compose p.1)

/-- First-defined wins on `Option` (Python `a or b` on optional strings,
read right-to-left across overlay layers: the later layer's value if set,
else the earlier one). -/
def oor (a b : Option String) : Option String :=
  match a with
  | some v => some v
  | none => b

/-- The override source `render_response` actually uses: the snapshot
overlay, or the latest reconciler row when the snapshot overlay is
absent. -/
def effectiveOverrides (sov rov : ProfileOverrides) : ProfileOverrides :=
  if overridesIsEmpty sov then rov else sov

/-- One `extracted_facts` entry folded into the last-valid-value scan of a
scalar field. -/
def lfvStep (field : String) (a : Option String) (f : ExtractedFact) :
    Option String :=
  if stripWs f.field = field then
    match asText f.newValue with
    | some v => some v
    | none => a
  else a

/-- One pending event folded into the last-valid-value scan. -/
def outerStep (field : String) (acc : Option String) (evt : PendingEvent) :
    Option String :=
  match evt.extractedFacts with
  | none => acc
  | some facts => facts.foldl (lfvStep field) acc

/-- The topic value a single fact contributes (a valid `notable_topics`
fact whose value passes the feedback filter). -/
def factTopicVal (f : ExtractedFact) : Option String :=
  if stripWs f.field = "notable_topics" then
    match asText f.newValue with
    | some nv => if looksLikeFeedbackTopic nv then none else some nv
    | none => none
  else none

/-- One step of the uncapped case-insensitive topic union. -/
def ciStep1 (acc : List String × List String) (nv : String) :
    List String × List String :=
  if lowerStr nv ∈ acc.2 then acc else (acc.1 ++ [nv], acc.2 ++ [lowerStr nv])

/-- `ciStep1` lifted to an optional contribution. -/
def ciStep (acc : List String × List String) (v : Option String) :
    List String × List String :=
  match v with
  | none => acc
  | some nv => ciStep1 acc nv

/-- The per-event step of `apply_pending_profile_events`. -/
def evFold (acc : Profile × List String × List String) (evt : PendingEvent) :
    Profile × List String × List String :=
  match evt.extractedFacts with
  | none => acc
  | some facts => facts.foldl applyFactStep acc

/-- The topic list after the durable-overrides layer: unchanged when the
overrides are empty or carry no surviving topics, otherwise the
case-insensitive union of the sanitised base with the sanitised override
topics, capped at ten entries with each added entry cut to 80
characters. -/
def overrideStageTopics (base : List String) (ov : ProfileOverrides) :
    List String :=
  if overridesIsEmpty ov then base
  else if (sanitizeNotableTopics ov.notableTopics 10).isEmpty then base
  else ciUnionCappedBy (fun t => strTake t 80) 10 (sanitizeNotableTopics base 10)
    (sanitizeNotableTopics ov.notableTopics 10)

/-- The topic list after the pending-events layer: unchanged when there
are no events, otherwise the case-insensitive union of the sanitised
override-stage list with the event topic values, truncated to ten. -/
def eventsStageTopics (t2 : List String) (events : List PendingEvent) :
    List String :=
  if events.isEmpty then t2
  else (ciUnionBy (fun t => t) (sanitizeNotableTopics t2 10)
    (topicFactValues events)).take 10

/-- A base profile already holding ten notable topics. -/
def c7Base : Profile :=
  { emptyProfile with notableTopics :=
      ["alpha", "bravo", "charlie", "delta", "echo",
       "foxtrot", "golf", "hotel", "india", "juliet"] }

/-- A durable override contributing one fresh topic. -/
def c7Ov : ProfileOverrides :=
  { primaryRole := none, primaryCompany := none, notableTopics := ["fresh"] }

/-! ## Support lemmas: `_clean_text` is idempotent -/

theorem wordsAux_goodWords (cs : List Char) :
    ∀ acc, (∀ c ∈ acc, isWsChar c = false) →
      ∀ w ∈ wordsAux cs acc, w ≠ [] ∧ ∀ c ∈ w, isWsChar c = false := by
  induction cs with
  | nil =>
      intro acc hacc w hw
      simp only [wordsAux] at hw
      split at hw
      · simp at hw
      · rename_i hne
        simp only [List.mem_singleton] at hw
        subst hw
        refine ⟨by simpa [List.isEmpty_iff] using hne, ?_⟩
        intro c hc
        exact hacc c (List.mem_reverse.mp hc)
  | cons c rest ih =>
      intro acc hacc w hw
      simp only [wordsAux] at hw
      by_cases hws : isWsChar c
      · rw [if_pos hws] at hw
        split at hw
        · exact ih [] (by simp) w hw
        · rename_i hne
          rcases List.mem_cons.mp hw with h | h
          · subst h
            refine ⟨by simpa [List.isEmpty_iff] using hne, ?_⟩
            intro d hd
            exact hacc d (List.mem_reverse.mp hd)
          · exact ih [] (by simp) w h
      · rw [if_neg hws] at hw
        refine ih (c :: acc) ?_ w hw
        intro d hd
        rcases List.mem_cons.mp hd with h | h
        · subst h; exact Bool.eq_false_iff.mpr hws
        · exact hacc d h

theorem wordsAux_append_nonws (w : List Char) :
    ∀ acc cs, (∀ c ∈ w, isWsChar c = false) →
      wordsAux (w ++ cs) acc = wordsAux cs (w.reverse ++ acc) := by
  induction w with
  | nil => intro acc cs _; simp
  | cons c w' ih =>
      intro acc cs hw
      have hc : isWsChar c = false := hw c (List.mem_cons_self c w')
      simp only [List.cons_append, wordsAux, hc, Bool.false_eq_true, if_false,
        List.append_eq]
      rw [ih (c :: acc) cs (fun d hd => hw d (List.mem_cons_of_mem c hd))]
      simp

theorem wordsOf_joinWithSpace :
    ∀ ws : List (List Char),
      (∀ w ∈ ws, w ≠ [] ∧ ∀ c ∈ w, isWsChar c = false) →
      wordsOf (joinWithSpace ws) = ws := by
  intro ws
  induction ws with
  | nil => intro _; simp [wordsOf, joinWithSpace, wordsAux]
  | cons w ws' ih =>
      intro hws
      obtain ⟨hne, hnw⟩ := hws w (List.mem_cons_self w ws')
      cases ws' with
      | nil =>
          show wordsAux (joinWithSpace [w]) [] = [w]
          have : joinWithSpace [w] = w := rfl
          rw [this, show w = w ++ ([] : List Char) by simp,
            wordsAux_append_nonws w [] [] hnw]
          simp [wordsAux, List.isEmpty_iff, hne]
      | cons w' ws'' =>
          show wordsAux (joinWithSpace (w :: w' :: ws'')) [] = w :: w' :: ws''
          have hjoin : joinWithSpace (w :: w' :: ws'') =
              w ++ ' ' :: joinWithSpace (w' :: ws'') := rfl
          rw [hjoin, wordsAux_append_nonws w [] _ hnw]
          have hws' : isWsChar ' ' = true := rfl
          simp only [wordsAux, hws', if_pos, List.append_nil]
          rw [if_neg (by simpa [List.isEmpty_iff] using hne)]
          rw [List.reverse_reverse]
          exact congrArg (w :: ·)
            (ih fun x hx => hws x (List.mem_cons_of_mem w hx))

theorem cleanChars_idem (cs : List Char) : cleanChars (cleanChars cs) = cleanChars cs := by
  unfold cleanChars
  rw [wordsOf_joinWithSpace (wordsOf cs) (wordsAux_goodWords cs [] (by simp))]

theorem cleanText_idem (s : String) : cleanText (cleanText s) = cleanText s := by
  unfold cleanText
  exact congrArg String.mk (cleanChars_idem s.toList)

theorem asTextS_idem {u nu : String} (h : asTextS u = some nu) : asTextS nu = some nu := by
  have h' : (if cleanText u = "" then none else some (cleanText u)) = some nu := h
  by_cases hc : cleanText u = ""
  · rw [if_pos hc] at h'; exact absurd h' (by simp)
  · rw [if_neg hc] at h'
    have hnu : nu = cleanText u := (Option.some_inj.mp h').symm
    subst hnu
    show (if cleanText (cleanText u) = "" then none
      else some (cleanText (cleanText u))) = _
    rw [cleanText_idem]
    rw [if_neg hc]

/-! ## C10: threshold clamping and confidence bands -/

/-- C10: for every environment configuration (any parsed values of
`DM_CONTACT_STYLE_CONFIRM_THRESHOLD` and
`DM_CONTACT_STYLE_AUTO_APPLY_THRESHOLD`, including unset or unparsable,
modelled by `none`), the effective thresholds satisfy
`0 ≤ confirm ≤ autoApply ≤ 1`, and the three bands of
`style_confidence_band` are characterised by mutually exclusive,
exhaustive conditions on the effective confidence value. -/
theorem claim_C10_threshold_ordering :
    ∀ envConfirm envAuto : Option ℚ,
      (0 ≤ dmContactStyleConfirmThreshold envConfirm envAuto ∧
       dmContactStyleConfirmThreshold envConfirm envAuto ≤
         dmContactStyleAutoApplyThreshold envAuto ∧
       dmContactStyleAutoApplyThreshold envAuto ≤ 1) ∧
      ∀ c : Option ℚ,
        (styleConfidenceBand (dmContactStyleConfirmThreshold envConfirm envAuto)
            (dmContactStyleAutoApplyThreshold envAuto) c = "high" ↔
          dmContactStyleAutoApplyThreshold envAuto ≤ c.getD 0) ∧
        (styleConfidenceBand (dmContactStyleConfirmThreshold envConfirm envAuto)
            (dmContactStyleAutoApplyThreshold envAuto) c = "medium" ↔
          dmContactStyleConfirmThreshold envConfirm envAuto ≤ c.getD 0 ∧
            c.getD 0 < dmContactStyleAutoApplyThreshold envAuto) ∧
        (styleConfidenceBand (dmContactStyleConfirmThreshold envConfirm envAuto)
            (dmContactStyleAutoApplyThreshold envAuto) c = "low" ↔
          c.getD 0 < dmContactStyleConfirmThreshold envConfirm envAuto) := by
  intro envConfirm envAuto
  have hconf_le : dmContactStyleConfirmThreshold envConfirm envAuto ≤
      dmContactStyleAutoApplyThreshold envAuto := min_le_left _ _
  refine ⟨⟨le_min (le_min (by norm_num) (le_max_left 0 _)) (le_max_left 0 _),
    hconf_le, min_le_left _ _⟩, ?_⟩
  intro c
  simp only [styleConfidenceBand]
  split_ifs with h1 h2
  · exact ⟨⟨fun _ => h1, fun _ => rfl⟩,
      ⟨fun h => ((by decide : ("high" : String) ≠ "medium") h).elim,
       fun hm => absurd h1 (not_le.mpr hm.2)⟩,
      ⟨fun h => ((by decide : ("high" : String) ≠ "low") h).elim,
       fun hl => absurd h1 (not_le.mpr (lt_of_lt_of_le hl hconf_le))⟩⟩
  · exact ⟨⟨fun h => ((by decide : ("medium" : String) ≠ "high") h).elim,
       fun ha => (h1 ha).elim⟩,
      ⟨fun _ => ⟨h2, not_le.mp h1⟩, fun _ => rfl⟩,
      ⟨fun h => ((by decide : ("medium" : String) ≠ "low") h).elim,
       fun hl => absurd h2 (not_le.mpr hl)⟩⟩
  · exact ⟨⟨fun h => ((by decide : ("low" : String) ≠ "high") h).elim,
       fun ha => (h1 ha).elim⟩,
      ⟨fun h => ((by decide : ("low" : String) ≠ "medium") h).elim,
       fun hm => (h2 hm.1).elim⟩,
      ⟨fun _ => not_le.mp h2, fun _ => rfl⟩⟩

/-! ## C6: the spend fuse -/

/-- C6: with a positive configured cap, a lock timeout skips the call
(fail closed); a same-day stored total at or above the cap skips the call;
a stored state from a different UTC day is treated as zero spend, so the
call is allowed again; below-cap same-day spend allows the call; and
`call_openrouter_chat` never proceeds when the fuse forbids the call. -/
theorem claim_C6_spend_fuse (cap : ℚ) (stored : SpendState) (today : String)
    (hcap : 0 < cap) :
    openrouterSpendFuseAllowsCall cap .timedOut stored today = false ∧
    (stored.date = today → cap ≤ stored.totalCostUsd.getD 0 →
      ∀ lock, openrouterSpendFuseAllowsCall cap lock stored today = false) ∧
    (stored.date ≠ today →
      openrouterSpendFuseAllowsCall cap .acquired stored today = true) ∧
    (stored.date = today → stored.totalCostUsd.getD 0 < cap →
      openrouterSpendFuseAllowsCall cap .acquired stored today = true) ∧
    (∀ llmEnabled hasKey : Bool,
      callOpenrouterChatProceeds llmEnabled hasKey
        (openrouterSpendFuseAllowsCall cap .timedOut stored today) = false) := by
  have hnot : ¬ cap ≤ 0 := not_le.mpr hcap
  refine ⟨?_, ?_, ?_, ?_, ?_⟩
  · simp [openrouterSpendFuseAllowsCall, withOpenrouterSpendLock, hnot]
  · intro hdate htot lock
    cases lock <;>
      simp [openrouterSpendFuseAllowsCall, withOpenrouterSpendLock, hnot,
        normalizedSpendTotal, hdate, not_lt.mpr htot]
  · intro hdate
    simp [openrouterSpendFuseAllowsCall, withOpenrouterSpendLock, hnot,
      normalizedSpendTotal, hdate, hcap]
  · intro hdate htot
    simp [openrouterSpendFuseAllowsCall, withOpenrouterSpendLock, hnot,
      normalizedSpendTotal, hdate, htot]
  · intro llmEnabled hasKey
    simp [openrouterSpendFuseAllowsCall, withOpenrouterSpendLock, hnot,
      callOpenrouterChatProceeds]

/-! ## Support lemmas: the claim selection -/

theorem msgOrder_refl (m : Msg) : msgOrder m m := Or.inr ⟨rfl, le_refl _⟩

theorem mem_dedupByConv :
    ∀ (l : List Msg) (seen : List Nat) (m : Msg),
      m ∈ dedupByConv l seen → m ∈ l ∧ m.conversationId ∉ seen := by
  intro l
  induction l with
  | nil => intro seen m hm; simp [dedupByConv] at hm
  | cons x rest ih =>
      intro seen m hm
      simp only [dedupByConv] at hm
      by_cases hx : x.conversationId ∈ seen
      · rw [if_pos hx] at hm
        obtain ⟨h1, h2⟩ := ih seen m hm
        exact ⟨List.mem_cons_of_mem x h1, h2⟩
      · rw [if_neg hx] at hm
        rcases List.mem_cons.mp hm with h | h
        · subst h; exact ⟨List.mem_cons_self _ _, hx⟩
        · obtain ⟨h1, h2⟩ := ih _ m h
          refine ⟨List.mem_cons_of_mem x h1, fun hc => h2 ?_⟩
          exact List.mem_cons_of_mem _ hc

theorem dedupByConv_pairwise_conv :
    ∀ (l : List Msg) (seen : List Nat),
      (dedupByConv l seen).Pairwise fun a b => a.conversationId ≠ b.conversationId := by
  intro l
  induction l with
  | nil => intro seen; simp [dedupByConv]
  | cons x rest ih =>
      intro seen
      simp only [dedupByConv]
      by_cases hx : x.conversationId ∈ seen
      · rw [if_pos hx]; exact ih seen
      · rw [if_neg hx]
        refine List.Pairwise.cons ?_ (ih _)
        intro b hb
        have := (mem_dedupByConv rest _ b hb).2
        intro hceq
        exact this (hceq ▸ List.mem_cons_self _ _)

theorem dedupByConv_min :
    ∀ (l : List Msg) (seen : List Nat) (m : Msg),
      l.Pairwise msgOrder → m ∈ dedupByConv l seen →
      ∀ m' ∈ l, m'.conversationId = m.conversationId → m' = m ∨ msgOrder m m' := by
  intro l
  induction l with
  | nil => intro seen m _ hm; simp [dedupByConv] at hm
  | cons x rest ih =>
      intro seen m hp hm m' hm' hconv
      have hx_rest := List.pairwise_cons.mp hp
      simp only [dedupByConv] at hm
      by_cases hx : x.conversationId ∈ seen
      · rw [if_pos hx] at hm
        have hmnot := (mem_dedupByConv rest seen m hm).2
        rcases List.mem_cons.mp hm' with h | h
        · subst h
          exact absurd (hconv ▸ hx) hmnot
        · exact ih seen m hx_rest.2 hm m' h hconv
      · rw [if_neg hx] at hm
        rcases List.mem_cons.mp hm with h | h
        · subst h
          rcases List.mem_cons.mp hm' with h' | h'
          · exact Or.inl h'
          · exact Or.inr (hx_rest.1 m' h')
        · have hmnot := (mem_dedupByConv rest _ m h).2
          rcases List.mem_cons.mp hm' with h' | h'
          · subst h'
            exact absurd (hconv ▸ List.mem_cons_self _ _) hmnot
          · exact ih _ m hx_rest.2 h m' h' hconv

/-- Elements of the selected batch are eligible rows of the store. -/
theorem claimSelected_mem (db : List Msg) (limit R : Nat) (m : Msg)
    (hm : m ∈ claimSelected db limit R) :
    m ∈ db ∧ eligiblePending db R m = true := by
  have h1 : m ∈ dedupByConv (claimCandidates db limit R) [] :=
    List.mem_of_mem_take hm
  have h2 : m ∈ claimCandidates db limit R :=
    (mem_dedupByConv _ _ m h1).1
  have h3 : m ∈ List.insertionSort msgOrder (db.filter (eligiblePending db R)) :=
    List.mem_of_mem_take h2
  have h4 : m ∈ db.filter (eligiblePending db R) :=
    (List.perm_insertionSort msgOrder _).mem_iff.mp h3
  exact ⟨List.mem_of_mem_filter h4, List.of_mem_filter h4⟩

/-- The selected batch holds at most one row per conversation. -/
theorem claimSelected_pairwise_conv (db : List Msg) (limit R : Nat) :
    (claimSelected db limit R).Pairwise
      fun a b => a.conversationId ≠ b.conversationId :=
  (dedupByConv_pairwise_conv _ _).sublist (List.take_sublist _ _)

theorem claimSelected_length_le (db : List Msg) (limit R : Nat) :
    (claimSelected db limit R).length ≤ limit :=
  (List.length_take _ _).le.trans (min_le_left _ _)

/-- A selected row is the `(sent_at, id)`-earliest eligible row of its
conversation. -/
theorem claimSelected_min (db : List Msg) (limit R : Nat) (m : Msg)
    (hm : m ∈ claimSelected db limit R) :
    ∀ m' ∈ db, eligiblePending db R m' = true →
      m'.conversationId = m.conversationId → m' = m ∨ msgOrder m m' := by
  intro m' hm' helig hconv
  set sorted := List.insertionSort msgOrder (db.filter (eligiblePending db R)) with hsorted
  set K := max (limit * 10) limit with hK
  have hsortedP : sorted.Pairwise msgOrder := List.sorted_insertionSort msgOrder _
  have hdedup : m ∈ dedupByConv (claimCandidates db limit R) [] :=
    List.mem_of_mem_take hm
  have hcandP : (claimCandidates db limit R).Pairwise msgOrder := by
    unfold claimCandidates
    exact hsortedP.sublist (List.take_sublist _ _)
  have hm'sorted : m' ∈ sorted :=
    (List.perm_insertionSort msgOrder _).mem_iff.mpr
      (List.mem_filter.mpr ⟨hm', helig⟩)
  have hsplit : sorted.take K ++ sorted.drop K = sorted := List.take_append_drop _ _
  rcases List.mem_append.mp (hsplit ▸ hm'sorted) with htake | hdrop
  · exact dedupByConv_min _ [] m hcandP hdedup m' htake hconv
  · right
    have hmtake : m ∈ sorted.take K := (mem_dedupByConv _ _ m hdedup).1
    have hpa := (List.pairwise_append.mp (hsplit.symm ▸ hsortedP)).2.2
    exact hpa m hmtake m' hdrop

/-- Members of the updated store are the images of store rows under the
claim update (selected ids) or unchanged rows. -/
theorem claimPending_db_mem (db : List Msg) (limit R : Nat) (now : Int) (x : Msg)
    (hx : x ∈ (claimPending db limit R now).1) :
    ∃ m ∈ db,
      (m.id ∈ (claimSelected db limit R).map (·.id) ∧ x = claimUpd now m) ∨
      (m.id ∉ (claimSelected db limit R).map (·.id) ∧ x = m) := by
  obtain ⟨m, hm, hfx⟩ := List.mem_map.mp hx
  refine ⟨m, hm, ?_⟩
  by_cases hid : m.id ∈ (claimSelected db limit R).map (·.id)
  · left; exact ⟨hid, by rw [← hfx, if_pos hid]⟩
  · right; exact ⟨hid, by rw [← hfx, if_neg hid]⟩

/-- With unique ids, a store row whose id is selected is itself the
selected row. -/
theorem mem_claimSelected_of_id (db : List Msg) (limit R : Nat) (m : Msg)
    (hids : (db.map (·.id)).Nodup) (hm : m ∈ db)
    (hid : m.id ∈ (claimSelected db limit R).map (·.id)) :
    m ∈ claimSelected db limit R := by
  obtain ⟨s, hs, hsid⟩ := List.mem_map.mp hid
  have hsdb : s ∈ db := (claimSelected_mem db limit R s hs).1
  have : s = m := List.inj_on_of_nodup_map hids hsdb hm hsid
  exact this ▸ hs

/-- `claim_pending` on a store with no eligible rows returns the empty
batch and leaves every row unchanged. -/
theorem claimPending_no_eligible (db : List Msg) (limit R : Nat) (now : Int)
    (h : db.filter (eligiblePending db R) = []) :
    (claimPending db limit R now).1 = db ∧ (claimPending db limit R now).2 = [] := by
  have hsel : claimSelected db limit R = [] := by
    unfold claimSelected claimCandidates
    rw [h]
    simp [List.insertionSort, dedupByConv]
  constructor
  · show db.map _ = db
    have : ∀ m ∈ db,
        (if m.id ∈ (claimSelected db limit R).map (·.id) then claimUpd now m else m) = m := by
      intro m _
      rw [hsel]
      simp
    calc db.map _ = db.map id := List.map_congr_left this
    _ = db := List.map_id db
  · show (claimSelected db limit R).map (claimUpd now) = []
    rw [hsel]; rfl

/-! ## C4: functional correctness of `claim_pending` -/

/-- C4: `claim_pending(limit, max_retries)` claims only inbound rows in
state `pending`/`failed` with attempt count below `max_retries` whose
conversation has no outbound row at or after the inbound send time; each
claimed row is the `(sent_at, id)`-earliest such eligible row of its
conversation; at most one row per conversation and at most `limit` rows
are claimed, each transitioned to `sending` with its attempt counter
incremented by one; unselected rows are unchanged; and with no eligible
rows the result is the empty batch with the store untouched. -/
theorem claim_C4_claim_pending (db : List Msg) (limit R : Nat) (now : Int)
    (hids : (db.map (·.id)).Nodup) :
    (∀ row ∈ (claimPending db limit R now).2,
      ∃ m ∈ db, eligiblePending db R m = true ∧ row = claimUpd now m ∧
        row.responseStatus = .sending ∧
        row.responseAttempts = m.responseAttempts + 1 ∧ m.responseAttempts < R ∧
        (∀ m' ∈ db, eligiblePending db R m' = true →
          m'.conversationId = m.conversationId → m' = m ∨ msgOrder m m')) ∧
    ((claimPending db limit R now).2.length ≤ limit) ∧
    ((claimPending db limit R now).2.Pairwise
      fun a b => a.conversationId ≠ b.conversationId) ∧
    (∀ m ∈ db,
      (m ∈ claimSelected db limit R →
        claimUpd now m ∈ (claimPending db limit R now).1) ∧
      (m ∉ claimSelected db limit R → m ∈ (claimPending db limit R now).1)) ∧
    (db.filter (eligiblePending db R) = [] →
      (claimPending db limit R now).1 = db ∧ (claimPending db limit R now).2 = []) := by
  refine ⟨?_, ?_, ?_, ?_, claimPending_no_eligible db limit R now⟩
  · intro row hrow
    obtain ⟨m, hmsel, hup⟩ := List.mem_map.mp hrow
    obtain ⟨hmdb, helig⟩ := claimSelected_mem db limit R m hmsel
    have hatt : m.responseAttempts < R := by
      have := helig
      unfold eligiblePending at this
      simp only [Bool.and_eq_true, decide_eq_true_eq] at this
      exact this.1.2
    refine ⟨m, hmdb, helig, hup.symm, ?_, ?_, hatt,
      claimSelected_min db limit R m hmsel⟩
    · rw [← hup]; rfl
    · rw [← hup]; rfl
  · show ((claimSelected db limit R).map (claimUpd now)).length ≤ limit
    rw [List.length_map]
    exact claimSelected_length_le db limit R
  · show ((claimSelected db limit R).map (claimUpd now)).Pairwise _
    refine List.Pairwise.map _ ?_ (claimSelected_pairwise_conv db limit R)
    intro a b hab
    exact hab
  · intro m hm
    constructor
    · intro hsel
      have hid : m.id ∈ (claimSelected db limit R).map (·.id) :=
        List.mem_map_of_mem _ hsel
      have : (if m.id ∈ (claimSelected db limit R).map (·.id)
          then claimUpd now m else m) = claimUpd now m := if_pos hid
      exact this ▸ List.mem_map_of_mem _ hm
    · intro hsel
      have hid : m.id ∉ (claimSelected db limit R).map (·.id) := fun hc =>
        hsel (mem_claimSelected_of_id db limit R m hids hm hc)
      have : (if m.id ∈ (claimSelected db limit R).map (·.id)
          then claimUpd now m else m) = m := if_neg hid
      exact this ▸ List.mem_map_of_mem _ hm

/-- A one-row store used by the C4 witness. -/
def c4Row : Msg :=
  { id := 1, conversationId := 1, direction := .inbound, sentAt := 0, text := "hi"
    senderExternalId := "7", externalMessageId := some "x"
    responseStatus := .pending, responseAttempts := 0, responseLastError := none
    responseAttemptedAt := none, respondedAt := none, responseExternalId := none }

/-- Witness for C4 at a one-row store: the single eligible row is claimed
and transitioned. -/
theorem claim_C4_claim_pending_witness :
    (claimPending [c4Row] 5 3 1).2.length ≤ 5 ∧
    (claimPending [c4Row] 5 3 1).1 ≠ [] := by
  refine ⟨(claim_C4_claim_pending [c4Row] 5 3 1 (by decide)).2.1, by decide⟩

/-! ## C1: exclusivity of `sending` per conversation -/

/-- The first inbound message, as inserted by the listener. -/
def c1Msg1 : Msg :=
  { id := 1, conversationId := 1, direction := .inbound, sentAt := 0, text := "a"
    senderExternalId := "7", externalMessageId := some "x1"
    responseStatus := .pending, responseAttempts := 0, responseLastError := none
    responseAttemptedAt := none, respondedAt := none, responseExternalId := none }

/-- The second inbound message of the same conversation, arriving while
the first is still being processed. -/
def c1Msg2 : Msg :=
  { id := 2, conversationId := 1, direction := .inbound, sentAt := 1, text := "b"
    senderExternalId := "7", externalMessageId := some "x2"
    responseStatus := .pending, responseAttempts := 0, responseLastError := none
    responseAttemptedAt := none, respondedAt := none, responseExternalId := none }

/-- C1 fails as stated: a reachable store (first message claimed and still
in-flight, second message of the same conversation pending) exists from
which running `claim_pending` leaves two inbound rows of one conversation
simultaneously in `sending` — the claim query excludes conversations with
an outbound reply, but not conversations with a row already in
`sending`. -/
theorem claim_C1_exclusivity_counterexample :
    ∃ db, DmReachable db ∧
      ∃ limit R now, twoSendingSameConversation ((claimPending db limit R now).1) = true := by
  have hc : (claimPending [c1Msg1] 5 3 1).1 = [claimUpd 1 c1Msg1] := by decide
  refine ⟨[claimUpd 1 c1Msg1, c1Msg2], ?_, 5, 3, 2, by decide⟩
  have h1 : DmStep [] [c1Msg1] :=
    ⟨3, DmStepR.newInbound [] c1Msg1 rfl rfl rfl (by simp)⟩
  have h2 : DmStep [c1Msg1] [claimUpd 1 c1Msg1] :=
    ⟨3, hc ▸ DmStepR.claim [c1Msg1] 5 1⟩
  have h3 : DmStep [claimUpd 1 c1Msg1] [claimUpd 1 c1Msg1, c1Msg2] :=
    ⟨3, DmStepR.newInbound [claimUpd 1 c1Msg1] c1Msg2 rfl rfl rfl (by decide)⟩
  exact Relation.ReflTransGen.head h1
    (Relation.ReflTransGen.head h2 (Relation.ReflTransGen.single h3))

/-- C1 amended: within a single `claim_pending` invocation at most one row
per conversation is claimed, and from a store with unique ids in which no
row is currently `sending`, running `claim_pending` never leaves two
inbound rows of one conversation simultaneously in `sending`.  (Starting
states that already hold a `sending` row — a concurrent worker mid-flight
or a crash inside the stale-recovery window — are exactly the
counterexample above.) -/
theorem claim_C1_exclusivity_amended (db : List Msg) (limit R : Nat) (now : Int)
    (hids : (db.map (·.id)).Nodup)
    (hnos : ∀ m ∈ db, m.responseStatus ≠ .sending) :
    ((claimPending db limit R now).2.Pairwise
      fun a b => a.conversationId ≠ b.conversationId) ∧
    twoSendingSameConversation ((claimPending db limit R now).1) = false := by
  constructor
  · show ((claimSelected db limit R).map (claimUpd now)).Pairwise _
    refine List.Pairwise.map _ ?_ (claimSelected_pairwise_conv db limit R)
    intro a b hab
    exact hab
  · rw [Bool.eq_false_iff]
    intro htwo
    simp only [twoSendingSameConversation, List.any_eq_true, Bool.and_eq_true,
      decide_eq_true_eq] at htwo
    obtain ⟨a, ha, b, hb, ⟨⟨⟨⟨⟨hne, hconv⟩, hadir⟩, hbdir⟩, hasend⟩, hbsend⟩⟩ := htwo
    obtain ⟨x, hxdb, hx⟩ := claimPending_db_mem db limit R now a ha
    obtain ⟨y, hydb, hy⟩ := claimPending_db_mem db limit R now b hb
    rcases hx with ⟨hxid, hxeq⟩ | ⟨_, hxeq⟩
    · rcases hy with ⟨hyid, hyeq⟩ | ⟨_, hyeq⟩
      · have hxsel := mem_claimSelected_of_id db limit R x hids hxdb hxid
        have hysel := mem_claimSelected_of_id db limit R y hids hydb hyid
        have hxyconv : x.conversationId = y.conversationId := by
          have hax : a.conversationId = x.conversationId := by rw [hxeq]; rfl
          have hby : b.conversationId = y.conversationId := by rw [hyeq]; rfl
          rw [← hax, ← hby, hconv]
        have hxy : x = y := by
          by_contra hxyne
          have hpair := claimSelected_pairwise_conv db limit R
          exact hpair.forall (fun _ _ h => h.symm) hxsel hysel hxyne hxyconv
        apply hne
        rw [hxeq, hyeq, hxy]
      · exact hnos y hydb (by rw [← hyeq]; exact hbsend)
    · exact hnos x hxdb (by rw [← hxeq]; exact hasend)

/-- Witness for the amended C1 at a two-conversation store. -/
theorem claim_C1_exclusivity_amended_witness :
    twoSendingSameConversation ((claimPending [c1Msg1, c1Msg2] 5 3 1).1) = false :=
  (claim_C1_exclusivity_amended [c1Msg1, c1Msg2] 5 3 1 (by decide)
    (by decide)).2

/-! ## Support lemmas: attempts and ids under the store operations -/

theorem eligible_attempts_lt (db : List Msg) (R : Nat) (m : Msg)
    (h : eligiblePending db R m = true) : m.responseAttempts < R := by
  unfold eligiblePending at h
  simp only [Bool.and_eq_true, decide_eq_true_eq] at h
  exact h.1.2

theorem map_attempts_of_update (db : List Msg) (f : Msg → Msg)
    (hf : ∀ m, (f m).responseAttempts = m.responseAttempts) :
    (db.map f).map (·.responseAttempts) = db.map (·.responseAttempts) := by
  rw [List.map_map]
  exact List.map_congr_left fun m _ => hf m

theorem map_id_of_update (db : List Msg) (f : Msg → Msg)
    (hf : ∀ m, (f m).id = m.id) :
    (db.map f).map (·.id) = db.map (·.id) := by
  rw [List.map_map]
  exact List.map_congr_left fun m _ => hf m

theorem markResponded_attempts (db : List Msg) (i : Nat) (e : String) (now : Int) :
    (markResponded db i e now).map (·.responseAttempts) =
      db.map (·.responseAttempts) :=
  map_attempts_of_update db _ fun m => by split <;> rfl

theorem markFailed_attempts (db : List Msg) (i : Nat) (reason : String) (now : Int) :
    (markFailed db i reason now).map (·.responseAttempts) =
      db.map (·.responseAttempts) :=
  map_attempts_of_update db _ fun m => by split <;> rfl

theorem markNotApplicable_attempts (db : List Msg) (i : Nat) (reason : String)
    (now : Int) :
    (markNotApplicable db i reason now).map (·.responseAttempts) =
      db.map (·.responseAttempts) :=
  map_attempts_of_update db _ fun m => by split <;> rfl

theorem recoverStaleSending_attempts (db : List Msg) (staleMinutes now : Int) :
    (recoverStaleSending db staleMinutes now).map (·.responseAttempts) =
      db.map (·.responseAttempts) :=
  map_attempts_of_update db _ fun m => by split <;> rfl

theorem markAutoResponded_attempts (db : List Msg) :
    (markAutoResponded db).map (·.responseAttempts) =
      db.map (·.responseAttempts) :=
  map_attempts_of_update db _ fun m => by
    split
    · split <;> rfl
    · rfl

/-! ## C2: reconciliation of already-answered messages -/

theorem insertionSort_head_min (l : List Msg) (hl : l ≠ []) :
    ∃ o, (List.insertionSort msgOrder l).head? = some o ∧ o ∈ l ∧
      ∀ x ∈ l, msgOrder o x := by
  have hperm := List.perm_insertionSort msgOrder l
  have hsorted : (List.insertionSort msgOrder l).Pairwise msgOrder :=
    List.sorted_insertionSort msgOrder l
  cases hs : List.insertionSort msgOrder l with
  | nil =>
      rw [hs] at hperm
      exact absurd hperm.symm.eq_nil hl
  | cons o rest =>
      rw [hs] at hperm hsorted
      refine ⟨o, rfl, hperm.mem_iff.mp (List.mem_cons_self _ _), ?_⟩
      intro x hx
      rcases List.mem_cons.mp (hperm.mem_iff.mpr hx) with h | h
      · rw [h]; exact msgOrder_refl o
      · exact (List.pairwise_cons.mp hsorted).1 x h

/-- Characterisation of the earliest qualifying outbound row. -/
theorem earliestLaterOutbound_spec (db : List Msg) (m o : Msg) (ho : o ∈ db)
    (hdir : o.direction = .outbound) (hconv : o.conversationId = m.conversationId)
    (hsent : m.sentAt ≤ o.sentAt) :
    ∃ eo, earliestLaterOutbound db m = some eo ∧ eo ∈ db ∧
      eo.direction = .outbound ∧ eo.conversationId = m.conversationId ∧
      m.sentAt ≤ eo.sentAt ∧
      ∀ o' ∈ db, o'.direction = .outbound → o'.conversationId = m.conversationId →
        m.sentAt ≤ o'.sentAt → msgOrder eo o' := by
  have hmem : o ∈ laterOutbounds db m := by
    unfold laterOutbounds
    refine List.mem_filter.mpr ⟨ho, ?_⟩
    simp [hconv, hdir, hsent]
  have hne : laterOutbounds db m ≠ [] := fun hc => by simp [hc] at hmem
  obtain ⟨eo, hhead, heomem, hmin⟩ := insertionSort_head_min (laterOutbounds db m) hne
  have heoprops := List.of_mem_filter heomem
  simp only [Bool.and_eq_true, decide_eq_true_eq] at heoprops
  refine ⟨eo, hhead, List.mem_of_mem_filter heomem, heoprops.1.2, heoprops.1.1,
    heoprops.2, ?_⟩
  intro o' ho' hdir' hconv' hsent'
  refine hmin o' (List.mem_filter.mpr ⟨ho', ?_⟩)
  simp [hconv', hdir', hsent']

theorem markRespondedFromExistingOutbound_eq (db : List Msg) (i : Nat) :
    (db.find? (fun m => m.id = i) = none →
      markRespondedFromExistingOutbound db i = (db, false)) ∧
    (∀ m, db.find? (fun m => m.id = i) = some m →
      (earliestLaterOutbound db m = none →
        markRespondedFromExistingOutbound db i = (db, false)) ∧
      (∀ o, earliestLaterOutbound db m = some o →
        markRespondedFromExistingOutbound db i =
          (db.map fun m' => if m'.id = i then autoRespondUpd m' o else m', true))) := by
  refine ⟨?_, ?_⟩
  · intro hf
    unfold markRespondedFromExistingOutbound
    rw [hf]
  · intro m hf
    constructor
    · intro he
      unfold markRespondedFromExistingOutbound
      rw [hf]
      show (match earliestLaterOutbound db m with
        | none => (db, false)
        | some o =>
            (db.map fun m' => if m'.id = i then autoRespondUpd m' o else m', true)) =
        (db, false)
      rw [he]
    · intro o he
      unfold markRespondedFromExistingOutbound
      rw [hf]
      show (match earliestLaterOutbound db m with
        | none => (db, false)
        | some o2 =>
            (db.map fun m' => if m'.id = i then autoRespondUpd m' o2 else m', true)) =
        (db.map fun m' => if m'.id = i then autoRespondUpd m' o else m', true)
      rw [he]

theorem markRespondedFromExistingOutbound_false (db : List Msg) (i : Nat)
    (h : (markRespondedFromExistingOutbound db i).2 = false) :
    (markRespondedFromExistingOutbound db i).1 = db := by
  cases hf : db.find? (fun m => m.id = i) with
  | none => rw [(markRespondedFromExistingOutbound_eq db i).1 hf]
  | some m =>
      cases he : earliestLaterOutbound db m with
      | none => rw [((markRespondedFromExistingOutbound_eq db i).2 m hf).1 he]
      | some o =>
          rw [((markRespondedFromExistingOutbound_eq db i).2 m hf).2 o he] at h
          simp at h

theorem markRespondedFromExistingOutbound_true (db : List Msg) (i : Nat)
    (h : (markRespondedFromExistingOutbound db i).2 = true) :
    ∀ m' ∈ (markRespondedFromExistingOutbound db i).1, m'.id = i →
      m'.responseStatus = .responded := by
  cases hf : db.find? (fun m => m.id = i) with
  | none =>
      rw [(markRespondedFromExistingOutbound_eq db i).1 hf] at h
      simp at h
  | some m =>
      cases he : earliestLaterOutbound db m with
      | none =>
          rw [((markRespondedFromExistingOutbound_eq db i).2 m hf).1 he] at h
          simp at h
      | some o =>
          rw [((markRespondedFromExistingOutbound_eq db i).2 m hf).2 o he]
          intro m' hm' hid
          obtain ⟨x, hx, hfx⟩ := List.mem_map.mp hm'
          by_cases hxi : x.id = i
          · rw [← hfx, if_pos hxi]; rfl
          · rw [← hfx, if_neg hxi] at hid
            exact absurd hid hxi

theorem markAutoResponded_mem (db : List Msg) (m eo : Msg) (hm : m ∈ db)
    (hdir : m.direction = .inbound)
    (hstat : m.responseStatus = .pending ∨ m.responseStatus = .failed ∨
      m.responseStatus = .sending)
    (hhead : earliestLaterOutbound db m = some eo) :
    autoRespondUpd m eo ∈ markAutoResponded db := by
  unfold markAutoResponded
  refine List.mem_map.mpr ⟨m, hm, ?_⟩
  show (if m.direction = .inbound
      ∧ (m.responseStatus = .pending ∨ m.responseStatus = .failed
          ∨ m.responseStatus = .sending) then
    match earliestLaterOutbound db m with
    | some o => autoRespondUpd m o
    | none => m
  else m) = autoRespondUpd m eo
  rw [if_pos ⟨hdir, hstat⟩, hhead]

theorem markNotApplicable_status (db : List Msg) (i : Nat) (reason : String)
    (now : Int) :
    ∀ m' ∈ markNotApplicable db i reason now, m'.id = i →
      m'.responseStatus = .notApplicable := by
  intro m' hm' hid
  obtain ⟨x, hx, hfx⟩ := List.mem_map.mp hm'
  by_cases hxi : x.id = i
  · rw [← hfx, if_pos hxi]
  · rw [← hfx, if_neg hxi] at hid
    exact absurd hid hxi

/-- C2: an inbound message still `pending`/`failed`/`sending` whose
conversation holds an outbound row at or after its send time is retired
without any send.  The sweep (`mark_auto_responded`) transitions it to
`responded`, attributing the `(sent_at, id)`-earliest such outbound row
(keeping an existing attribution when present); the per-message re-check
in the batch loop skips the row with no delivery, leaving it `responded`
or `not_applicable`. -/
theorem claim_C2_reconciliation :
    (∀ (db : List Msg) (m : Msg), m ∈ db → m.direction = .inbound →
      (m.responseStatus = .pending ∨ m.responseStatus = .failed ∨
        m.responseStatus = .sending) →
      ∀ o ∈ db, o.direction = .outbound → o.conversationId = m.conversationId →
        m.sentAt ≤ o.sentAt →
      ∃ eo, earliestLaterOutbound db m = some eo ∧
        eo ∈ db ∧ eo.direction = .outbound ∧ eo.conversationId = m.conversationId ∧
        m.sentAt ≤ eo.sentAt ∧
        (∀ o' ∈ db, o'.direction = .outbound → o'.conversationId = m.conversationId →
          m.sentAt ≤ o'.sentAt → msgOrder eo o') ∧
        autoRespondUpd m eo ∈ markAutoResponded db ∧
        (autoRespondUpd m eo).responseStatus = .responded ∧
        (m.responseExternalId = none →
          (autoRespondUpd m eo).responseExternalId = eo.externalMessageId)) ∧
    (∀ (compose : Msg → String) (providerId : Nat → String) (now : Int)
        (st : BatchState) (r : Msg) (peer : Nat),
      parseExternalId r.senderExternalId = some peer →
      alreadyAnsweredRecheck st.db r = true →
      (processRow compose providerId now st r).2 = .skippedAnswered ∧
      (processRow compose providerId now st r).1.sends = st.sends ∧
      ∀ m' ∈ (processRow compose providerId now st r).1.db, m'.id = r.id →
        (m'.responseStatus = .responded ∨ m'.responseStatus = .notApplicable)) := by
  constructor
  · intro db m hm hdir hstat o ho hodir hoconv hosent
    obtain ⟨eo, hhead, heodb, heodir, heoconv, heosent, heomin⟩ :=
      earliestLaterOutbound_spec db m o ho hodir hoconv hosent
    refine ⟨eo, hhead, heodb, heodir, heoconv, heosent, heomin,
      markAutoResponded_mem db m eo hm hdir hstat hhead, rfl, ?_⟩
    intro hnone
    simp [autoRespondUpd, hnone, Option.orElse]
  · intro compose providerId now st r peer hp hre
    have hout : (processRow compose providerId now st r).2 = .skippedAnswered ∧
        (processRow compose providerId now st r).1.sends = st.sends ∧
        (processRow compose providerId now st r).1.db =
          (if (markRespondedFromExistingOutbound st.db r.id).2 then
            (markRespondedFromExistingOutbound st.db r.id).1
          else
            markNotApplicable (markRespondedFromExistingOutbound st.db r.id).1 r.id
              "already_responded_externally" now) := by
      unfold processRow
      rw [hp]
      simp [hre]
    refine ⟨hout.1, hout.2.1, ?_⟩
    intro m' hm' hid
    rw [hout.2.2] at hm'
    by_cases hok : (markRespondedFromExistingOutbound st.db r.id).2
    · rw [if_pos hok] at hm'
      exact Or.inl (markRespondedFromExistingOutbound_true st.db r.id hok m' hm' hid)
    · rw [if_neg hok] at hm'
      exact Or.inr (markNotApplicable_status _ r.id _ now m' hm' hid)

/-- An already-answered inbound row for the C2 witness. -/
def c2Inbound : Msg :=
  { id := 1, conversationId := 1, direction := .inbound, sentAt := 0, text := "hi"
    senderExternalId := "7", externalMessageId := some "x1"
    responseStatus := .pending, responseAttempts := 0, responseLastError := none
    responseAttemptedAt := none, respondedAt := none, responseExternalId := none }

/-- The outbound reply that already answered `c2Inbound`. -/
def c2Outbound : Msg :=
  { id := 2, conversationId := 1, direction := .outbound, sentAt := 5, text := "done"
    senderExternalId := "me", externalMessageId := some "x2"
    responseStatus := .notApplicable, responseAttempts := 0, responseLastError := none
    responseAttemptedAt := none, respondedAt := none, responseExternalId := none }

/-- Witness for C2: both reconciliation paths applied to a two-row
store. -/
theorem claim_C2_reconciliation_witness :
    (∃ eo, earliestLaterOutbound [c2Inbound, c2Outbound] c2Inbound = some eo ∧
      eo ∈ [c2Inbound, c2Outbound] ∧ eo.direction = .outbound ∧
      eo.conversationId = c2Inbound.conversationId ∧
      c2Inbound.sentAt ≤ eo.sentAt ∧
      (∀ o' ∈ [c2Inbound, c2Outbound], o'.direction = .outbound →
        o'.conversationId = c2Inbound.conversationId →
        c2Inbound.sentAt ≤ o'.sentAt → msgOrder eo o') ∧
      autoRespondUpd c2Inbound eo ∈ markAutoResponded [c2Inbound, c2Outbound] ∧
      (autoRespondUpd c2Inbound eo).responseStatus = .responded ∧
      (c2Inbound.responseExternalId = none →
        (autoRespondUpd c2Inbound eo).responseExternalId = eo.externalMessageId)) ∧
    (processRow (fun _ => "t") (fun _ => "p") 9
      { db := [c2Inbound, c2Outbound], sigs := [], sends := [] } c2Inbound).2 =
      .skippedAnswered := by
  refine ⟨claim_C2_reconciliation.1 [c2Inbound, c2Outbound] c2Inbound (by decide)
      (by decide) (by decide) c2Outbound (by decide) (by decide) (by decide) (by decide),
    (claim_C2_reconciliation.2 (fun _ => "t") (fun _ => "p") 9
      { db := [c2Inbound, c2Outbound], sigs := [], sends := [] } c2Inbound 7
      (by decide) (by decide)).1⟩

/-! ## C3: bounded retries -/

theorem markRespondedFromExistingOutbound_attempts (db : List Msg) (i : Nat) :
    ((markRespondedFromExistingOutbound db i).1).map (·.responseAttempts) =
      db.map (·.responseAttempts) := by
  cases hf : db.find? (fun m => m.id = i) with
  | none => rw [(markRespondedFromExistingOutbound_eq db i).1 hf]
  | some m =>
      cases he : earliestLaterOutbound db m with
      | none => rw [((markRespondedFromExistingOutbound_eq db i).2 m hf).1 he]
      | some o =>
          rw [((markRespondedFromExistingOutbound_eq db i).2 m hf).2 o he]
          exact map_attempts_of_update db _ fun m => by split <;> rfl

theorem nodup_ids_append (db : List Msg) (m : Msg)
    (hids : (db.map (·.id)).Nodup) (hfresh : ∀ m' ∈ db, m'.id ≠ m.id) :
    ((db ++ [m]).map (·.id)).Nodup := by
  rw [List.map_append]
  refine List.Nodup.append hids (List.nodup_singleton _) ?_
  intro a ha hb
  obtain ⟨x, hx, hxa⟩ := List.mem_map.mp ha
  simp only [List.map_cons, List.map_nil, List.mem_singleton] at hb
  exact hfresh x hx (hxa.trans hb)

theorem nodup_ids_map_update (db : List Msg) (f : Msg → Msg)
    (hf : ∀ m, (f m).id = m.id) (hids : (db.map (·.id)).Nodup) :
    ((db.map f).map (·.id)).Nodup := by
  rw [map_id_of_update db f hf]
  exact hids

theorem mem_map_attempts_bound (R : Nat) (db : List Msg) (f : Msg → Msg)
    (hf : ∀ m, (f m).responseAttempts = m.responseAttempts)
    (hb : ∀ m ∈ db, m.responseAttempts ≤ R) :
    ∀ m' ∈ db.map f, m'.responseAttempts ≤ R := by
  intro m' hm'
  obtain ⟨m, hm, hfm⟩ := List.mem_map.mp hm'
  rw [← hfm, hf]
  exact hb m hm

/-- Store ids stay unique under every transition. -/
theorem dmStepR_nodup (R : Nat) (db db' : List Msg) (h : DmStepR R db db')
    (hids : (db.map (·.id)).Nodup) : (db'.map (·.id)).Nodup := by
  cases h with
  | newInbound m hdir hstat hatt hfresh => exact nodup_ids_append db m hids hfresh
  | newOutbound m hdir hatt hfresh => exact nodup_ids_append db m hids hfresh
  | claim limit now =>
      exact nodup_ids_map_update db _ (fun m => by split <;> rfl) hids
  | respond msgId ext now =>
      exact nodup_ids_map_update db _ (fun m => by split <;> rfl) hids
  | failMark msgId reason now =>
      exact nodup_ids_map_update db _ (fun m => by split <;> rfl) hids
  | notApplicableMark msgId reason now =>
      exact nodup_ids_map_update db _ (fun m => by split <;> rfl) hids
  | recoverStale staleMinutes now =>
      exact nodup_ids_map_update db _ (fun m => by split <;> rfl) hids
  | autoRespond =>
      refine nodup_ids_map_update db _ (fun m => ?_) hids
      split
      · split <;> rfl
      · rfl
  | respondFromExisting msgId =>
      cases hf : db.find? (fun m => m.id = msgId) with
      | none => rw [(markRespondedFromExistingOutbound_eq db msgId).1 hf]; exact hids
      | some m =>
          cases he : earliestLaterOutbound db m with
          | none =>
              rw [((markRespondedFromExistingOutbound_eq db msgId).2 m hf).1 he]
              exact hids
          | some o =>
              rw [((markRespondedFromExistingOutbound_eq db msgId).2 m hf).2 o he]
              exact nodup_ids_map_update db _ (fun m => by split <;> rfl) hids

/-- Attempt counters never exceed `R` under any transition with claims
configured at `max_retries = R`. -/
theorem dmStepR_attempts_bound (R : Nat) (db db' : List Msg) (h : DmStepR R db db')
    (hids : (db.map (·.id)).Nodup)
    (hb : ∀ m ∈ db, m.responseAttempts ≤ R) :
    ∀ m' ∈ db', m'.responseAttempts ≤ R := by
  cases h with
  | newInbound m hdir hstat hatt hfresh =>
      intro m' hm'
      rcases List.mem_append.mp hm' with hmem | hmem
      · exact hb m' hmem
      · simp only [List.mem_singleton] at hmem
        rw [hmem, hatt]
        exact Nat.zero_le R
  | newOutbound m hdir hatt hfresh =>
      intro m' hm'
      rcases List.mem_append.mp hm' with hmem | hmem
      · exact hb m' hmem
      · simp only [List.mem_singleton] at hmem
        rw [hmem, hatt]
        exact Nat.zero_le R
  | claim limit now =>
      intro m' hm'
      obtain ⟨m, hm, hfm⟩ := List.mem_map.mp hm'
      by_cases hid : m.id ∈ (claimSelected db limit R).map (·.id)
      · have hsel := mem_claimSelected_of_id db limit R m hids hm hid
        have hlt := eligible_attempts_lt db R m (claimSelected_mem db limit R m hsel).2
        have hm'eq : m' = claimUpd now m := by rw [← hfm]; exact if_pos hid
        rw [hm'eq]
        show m.responseAttempts + 1 ≤ R
        omega
      · have hm'eq : m' = m := by rw [← hfm]; exact if_neg hid
        rw [hm'eq]
        exact hb m hm
  | respond msgId ext now =>
      exact mem_map_attempts_bound R db _ (fun m => by split <;> rfl) hb
  | failMark msgId reason now =>
      exact mem_map_attempts_bound R db _ (fun m => by split <;> rfl) hb
  | notApplicableMark msgId reason now =>
      exact mem_map_attempts_bound R db _ (fun m => by split <;> rfl) hb
  | recoverStale staleMinutes now =>
      exact mem_map_attempts_bound R db _ (fun m => by split <;> rfl) hb
  | autoRespond =>
      refine mem_map_attempts_bound R db _ (fun m => ?_) hb
      split
      · split <;> rfl
      · rfl
  | respondFromExisting msgId =>
      cases hf : db.find? (fun m => m.id = msgId) with
      | none =>
          rw [(markRespondedFromExistingOutbound_eq db msgId).1 hf]
          exact hb
      | some m =>
          cases he : earliestLaterOutbound db m with
          | none =>
              rw [((markRespondedFromExistingOutbound_eq db msgId).2 m hf).1 he]
              exact hb
          | some o =>
              rw [((markRespondedFromExistingOutbound_eq db msgId).2 m hf).2 o he]
              exact mem_map_attempts_bound R db _ (fun m => by split <;> rfl) hb

/-- The reachability invariant: unique ids and attempt counters at most
`R`. -/
theorem dmReachableBounded_inv (R : Nat) (db : List Msg)
    (h : DmReachableBounded R db) :
    (db.map (·.id)).Nodup ∧ ∀ m ∈ db, m.responseAttempts ≤ R := by
  induction h with
  | refl => exact ⟨by simp, by simp⟩
  | tail hsteps hstep ih =>
      exact ⟨dmStepR_nodup R _ _ hstep ih.1,
        dmStepR_attempts_bound R _ _ hstep ih.1 ih.2⟩

/-- A `failed` row at the retry cap stays `failed` or moves only to a
terminal non-pending state, under any single transition. -/
theorem dmStepR_failed_terminal (R : Nat) (db db' : List Msg)
    (h : DmStepR R db db') (hids : (db.map (·.id)).Nodup)
    (m : Msg) (hm : m ∈ db) (hatt : m.responseAttempts = R)
    (hfail : m.responseStatus = .failed) :
    ∃ m' ∈ db', m'.id = m.id ∧ m'.responseAttempts = R ∧
      (m'.responseStatus = .failed ∨ m'.responseStatus = .responded ∨
        m'.responseStatus = .notApplicable) := by
  cases h with
  | newInbound x hdir hstat hatt0 hfresh =>
      exact ⟨m, List.mem_append_left _ hm, rfl, hatt, Or.inl hfail⟩
  | newOutbound x hdir hatt0 hfresh =>
      exact ⟨m, List.mem_append_left _ hm, rfl, hatt, Or.inl hfail⟩
  | claim limit now =>
      have hid : m.id ∉ (claimSelected db limit R).map (·.id) := by
        intro hc
        have hsel := mem_claimSelected_of_id db limit R m hids hm hc
        have hlt := eligible_attempts_lt db R m (claimSelected_mem db limit R m hsel).2
        omega
      refine ⟨m, ?_, rfl, hatt, Or.inl hfail⟩
      have : (if m.id ∈ (claimSelected db limit R).map (·.id)
          then claimUpd now m else m) = m := if_neg hid
      exact this ▸ List.mem_map_of_mem _ hm
  | respond msgId ext now =>
      obtain ⟨m2, hmem, heq⟩ : ∃ m2 ∈ markResponded db msgId ext now,
          (fun mm : Msg =>
            if mm.id = msgId then
              { mm with
                responseStatus := .responded
                responseExternalId := some ext
                respondedAt := some now
                responseLastError := none }
            else mm) m = m2 :=
        ⟨_, List.mem_map_of_mem _ hm, rfl⟩
      by_cases hi : m.id = msgId
      · simp only [if_pos hi] at heq
        subst heq
        exact ⟨_, hmem, rfl, hatt, Or.inr (Or.inl rfl)⟩
      · simp only [if_neg hi] at heq
        subst heq
        exact ⟨_, hmem, rfl, hatt, Or.inl hfail⟩
  | failMark msgId reason now =>
      obtain ⟨m2, hmem, heq⟩ : ∃ m2 ∈ markFailed db msgId reason now,
          (fun mm : Msg =>
            if mm.id = msgId then
              { mm with
                responseStatus := .failed
                responseLastError := some (strTake reason 2048)
                responseAttemptedAt := some now }
            else mm) m = m2 :=
        ⟨_, List.mem_map_of_mem _ hm, rfl⟩
      by_cases hi : m.id = msgId
      · simp only [if_pos hi] at heq
        subst heq
        exact ⟨_, hmem, rfl, hatt, Or.inl rfl⟩
      · simp only [if_neg hi] at heq
        subst heq
        exact ⟨_, hmem, rfl, hatt, Or.inl hfail⟩
  | notApplicableMark msgId reason now =>
      obtain ⟨m2, hmem, heq⟩ : ∃ m2 ∈ markNotApplicable db msgId reason now,
          (fun mm : Msg =>
            if mm.id = msgId then
              { mm with
                responseStatus := .notApplicable
                responseLastError := some (strTake reason 2048)
                responseAttemptedAt := some now }
            else mm) m = m2 :=
        ⟨_, List.mem_map_of_mem _ hm, rfl⟩
      by_cases hi : m.id = msgId
      · simp only [if_pos hi] at heq
        subst heq
        exact ⟨_, hmem, rfl, hatt, Or.inr (Or.inr rfl)⟩
      · simp only [if_neg hi] at heq
        subst heq
        exact ⟨_, hmem, rfl, hatt, Or.inl hfail⟩
  | recoverStale staleMinutes now =>
      obtain ⟨m2, hmem, heq⟩ : ∃ m2 ∈ recoverStaleSending db staleMinutes now,
          (fun mm : Msg =>
            if mm.responseStatus = RespStatus.sending
                && (match mm.responseAttemptedAt with
                    | some t => decide (t < now - staleMinutes)
                    | none => false) then
              { mm with
                responseStatus := .failed
                responseLastError := some "recovered from stale sending state"
                responseAttemptedAt := some now }
            else mm) m = m2 :=
        ⟨_, List.mem_map_of_mem _ hm, rfl⟩
      simp only [hfail] at heq
      simp at heq
      subst heq
      exact ⟨m, hmem, rfl, hatt, Or.inl hfail⟩
  | autoRespond =>
      have hstat : m.responseStatus = .pending ∨ m.responseStatus = .failed ∨
          m.responseStatus = .sending := Or.inr (Or.inl hfail)
      by_cases hdir : m.direction = .inbound
      · cases he : earliestLaterOutbound db m with
        | none =>
            refine ⟨m, ?_, rfl, hatt, Or.inl hfail⟩
            have : (if m.direction = .inbound
                ∧ (m.responseStatus = .pending ∨ m.responseStatus = .failed
                    ∨ m.responseStatus = .sending) then
              match earliestLaterOutbound db m with
              | some o => autoRespondUpd m o
              | none => m
            else m) = m := by
              rw [if_pos (And.intro hdir hstat), he]
            exact this ▸ List.mem_map_of_mem _ hm
        | some o =>
            refine ⟨autoRespondUpd m o, ?_, rfl, hatt, Or.inr (Or.inl rfl)⟩
            have : (if m.direction = .inbound
                ∧ (m.responseStatus = .pending ∨ m.responseStatus = .failed
                    ∨ m.responseStatus = .sending) then
              match earliestLaterOutbound db m with
              | some o => autoRespondUpd m o
              | none => m
            else m) = autoRespondUpd m o := by
              rw [if_pos (And.intro hdir hstat), he]
            exact this ▸ List.mem_map_of_mem _ hm
      · refine ⟨m, ?_, rfl, hatt, Or.inl hfail⟩
        have : (if m.direction = .inbound
            ∧ (m.responseStatus = .pending ∨ m.responseStatus = .failed
                ∨ m.responseStatus = .sending) then
          match earliestLaterOutbound db m with
          | some o => autoRespondUpd m o
          | none => m
        else m) = m := by
          rw [if_neg]
          intro hc
          exact hdir hc.1
        exact this ▸ List.mem_map_of_mem _ hm
  | respondFromExisting msgId =>
      cases hf : db.find? (fun mm => mm.id = msgId) with
      | none =>
          rw [(markRespondedFromExistingOutbound_eq db msgId).1 hf]
          exact ⟨m, hm, rfl, hatt, Or.inl hfail⟩
      | some x =>
          cases he : earliestLaterOutbound db x with
          | none =>
              rw [((markRespondedFromExistingOutbound_eq db msgId).2 x hf).1 he]
              exact ⟨m, hm, rfl, hatt, Or.inl hfail⟩
          | some o =>
              rw [((markRespondedFromExistingOutbound_eq db msgId).2 x hf).2 o he]
              by_cases hi : m.id = msgId
              · refine ⟨autoRespondUpd m o, ?_, rfl, hatt, Or.inr (Or.inl rfl)⟩
                have : (if m.id = msgId then autoRespondUpd m o else m) =
                    autoRespondUpd m o := if_pos hi
                exact this ▸ List.mem_map_of_mem _ hm
              · refine ⟨m, ?_, rfl, hatt, Or.inl hfail⟩
                have : (if m.id = msgId then autoRespondUpd m o else m) = m :=
                  if_neg hi
                exact this ▸ List.mem_map_of_mem _ hm

/-- C3: attempt counters never exceed `max_retries`: every state reachable
with claims at `max_retries = R` keeps every row's `response_attempts` at
most `R`; `claim_pending` claims only rows with attempts strictly below
`R`, incrementing by exactly one; none of the other operations changes
any attempt counter; and a `failed` row at the cap stays `failed` or
moves only to a terminal non-pending state. -/
theorem claim_C3_bounded_retries (R : Nat) :
    (∀ db, DmReachableBounded R db → ∀ m ∈ db, m.responseAttempts ≤ R) ∧
    (∀ (db : List Msg) (limit : Nat) (now : Int), (db.map (·.id)).Nodup →
      ∀ m ∈ db,
        (m ∈ claimSelected db limit R →
          claimUpd now m ∈ (claimPending db limit R now).1 ∧
          m.responseAttempts < R ∧
          (claimUpd now m).responseAttempts = m.responseAttempts + 1) ∧
        (m ∉ claimSelected db limit R → m ∈ (claimPending db limit R now).1)) ∧
    (∀ (db : List Msg) (i : Nat) (e reason : String) (sm now : Int),
      (markResponded db i e now).map (·.responseAttempts) =
        db.map (·.responseAttempts) ∧
      (markFailed db i reason now).map (·.responseAttempts) =
        db.map (·.responseAttempts) ∧
      (markNotApplicable db i reason now).map (·.responseAttempts) =
        db.map (·.responseAttempts) ∧
      (recoverStaleSending db sm now).map (·.responseAttempts) =
        db.map (·.responseAttempts) ∧
      (markAutoResponded db).map (·.responseAttempts) =
        db.map (·.responseAttempts) ∧
      ((markRespondedFromExistingOutbound db i).1).map (·.responseAttempts) =
        db.map (·.responseAttempts)) ∧
    (∀ db db', DmStepR R db db' → (db.map (·.id)).Nodup →
      ∀ m ∈ db, m.responseAttempts = R → m.responseStatus = .failed →
      ∃ m' ∈ db', m'.id = m.id ∧ m'.responseAttempts = R ∧
        (m'.responseStatus = .failed ∨ m'.responseStatus = .responded ∨
          m'.responseStatus = .notApplicable)) := by
  refine ⟨fun db h => (dmReachableBounded_inv R db h).2, ?_, ?_, ?_⟩
  · intro db limit now hids m hm
    constructor
    · intro hsel
      have hlt := eligible_attempts_lt db R m (claimSelected_mem db limit R m hsel).2
      have hid : m.id ∈ (claimSelected db limit R).map (·.id) :=
        List.mem_map_of_mem _ hsel
      refine ⟨?_, hlt, rfl⟩
      have : (if m.id ∈ (claimSelected db limit R).map (·.id)
          then claimUpd now m else m) = claimUpd now m := if_pos hid
      exact this ▸ List.mem_map_of_mem _ hm
    · intro hsel
      have hid : m.id ∉ (claimSelected db limit R).map (·.id) := fun hc =>
        hsel (mem_claimSelected_of_id db limit R m hids hm hc)
      have : (if m.id ∈ (claimSelected db limit R).map (·.id)
          then claimUpd now m else m) = m := if_neg hid
      exact this ▸ List.mem_map_of_mem _ hm
  · intro db i e reason sm now
    exact ⟨markResponded_attempts db i e now, markFailed_attempts db i reason now,
      markNotApplicable_attempts db i reason now,
      recoverStaleSending_attempts db sm now, markAutoResponded_attempts db,
      markRespondedFromExistingOutbound_attempts db i⟩
  · intro db db' hstep hids m hm hatt hfail
    exact dmStepR_failed_terminal R db db' hstep hids m hm hatt hfail

/-- Witness for C3 after one listener insertion. -/
theorem claim_C3_bounded_retries_witness :
    ∀ m ∈ [c1Msg1], m.responseAttempts ≤ 3 :=
  (claim_C3_bounded_retries 3).1 [c1Msg1]
    (Relation.ReflTransGen.single
      (DmStepR.newInbound [] c1Msg1 rfl rfl rfl (by simp)))

/-! ## C7: profile aggregation -/

theorem oor_assoc (x y z : Option String) : oor (oor x y) z = oor x (oor y z) := by
  cases x <;> rfl

theorem lastFactValue_eq_foldl (events : List PendingEvent) (field : String) :
    lastFactValue events field = events.foldl (outerStep field) none := rfl

theorem ciUnionBy_id_eq (base extra : List String) :
    ciUnionBy (fun t => t) base extra =
      (extra.foldl ciStep1 (base, base.map lowerStr)).1 := rfl

theorem applyFactStep_spec (acc : Profile × List String × List String)
    (f : ExtractedFact) :
    (applyFactStep acc f).1.primaryRole =
      lfvStep "primary_role" acc.1.primaryRole f ∧
    (applyFactStep acc f).1.primaryCompany =
      lfvStep "primary_company" acc.1.primaryCompany f ∧
    (applyFactStep acc f).1.preferredContactStyle =
      acc.1.preferredContactStyle ∧
    (applyFactStep acc f).2 = ciStep acc.2 (factTopicVal f) := by
  cases h : asText f.newValue with
  | none =>
      refine ⟨?_, ?_, ?_, ?_⟩ <;>
        simp [applyFactStep, lfvStep, factTopicVal, ciStep, h]
  | some nv =>
      by_cases h1 : stripWs f.field = "primary_company"
      · refine ⟨?_, ?_, ?_, ?_⟩ <;>
          simp [applyFactStep, lfvStep, factTopicVal, ciStep, h, h1]
      · by_cases h2 : stripWs f.field = "primary_role"
        · refine ⟨?_, ?_, ?_, ?_⟩ <;>
            simp [applyFactStep, lfvStep, factTopicVal, ciStep, h, h1, h2]
        · by_cases h3 : stripWs f.field = "preferred_contact_style"
          · refine ⟨?_, ?_, ?_, ?_⟩ <;>
              simp [applyFactStep, lfvStep, factTopicVal, ciStep, h, h1, h2, h3]
          · by_cases h4 : stripWs f.field = "notable_topics"
            · by_cases h5 : looksLikeFeedbackTopic nv = true
              · refine ⟨?_, ?_, ?_, ?_⟩ <;>
                  simp [applyFactStep, lfvStep, factTopicVal, ciStep, h,
                    h1, h2, h3, h4, h5]
              · by_cases h6 : lowerStr nv ∈ acc.2.2
                · refine ⟨?_, ?_, ?_, ?_⟩ <;>
                    simp [applyFactStep, lfvStep, factTopicVal, ciStep, ciStep1,
                      h, h1, h2, h3, h4, h5, h6]
                · refine ⟨?_, ?_, ?_, ?_⟩ <;>
                    simp [applyFactStep, lfvStep, factTopicVal, ciStep, ciStep1,
                      h, h1, h2, h3, h4, h5, h6]
            · refine ⟨?_, ?_, ?_, ?_⟩ <;>
                simp [applyFactStep, lfvStep, factTopicVal, ciStep, h,
                  h1, h2, h3, h4]

theorem factsFold_proj (facts : List ExtractedFact) :
    ∀ acc : Profile × List String × List String,
      ((facts.foldl applyFactStep acc).1.primaryRole =
        facts.foldl (lfvStep "primary_role") acc.1.primaryRole) ∧
      ((facts.foldl applyFactStep acc).1.primaryCompany =
        facts.foldl (lfvStep "primary_company") acc.1.primaryCompany) ∧
      ((facts.foldl applyFactStep acc).1.preferredContactStyle =
        acc.1.preferredContactStyle) ∧
      ((facts.foldl applyFactStep acc).2 =
        (facts.filterMap factTopicVal).foldl ciStep1 acc.2) := by
  induction facts with
  | nil => intro acc; exact ⟨rfl, rfl, rfl, rfl⟩
  | cons f fs ih =>
      intro acc
      obtain ⟨s1, s2, s3, s4⟩ := applyFactStep_spec acc f
      obtain ⟨i1, i2, i3, i4⟩ := ih (applyFactStep acc f)
      refine ⟨?_, ?_, ?_, ?_⟩
      · simp only [List.foldl_cons]
        rw [i1, s1]
      · simp only [List.foldl_cons]
        rw [i2, s2]
      · simp only [List.foldl_cons]
        rw [i3, s3]
      · simp only [List.foldl_cons]
        rw [i4, s4]
        cases hv : factTopicVal f with
        | none => simp [List.filterMap_cons, hv, ciStep]
        | some v => simp [List.filterMap_cons, hv, ciStep]

theorem topicFactValues_cons (evt : PendingEvent) (evts : List PendingEvent) :
    topicFactValues (evt :: evts) =
      (match evt.extractedFacts with
       | none => []
       | some facts => facts.filterMap factTopicVal) ++ topicFactValues evts := rfl

theorem evFold_spec (acc : Profile × List String × List String)
    (evt : PendingEvent) :
    (evFold acc evt).1.primaryRole =
      outerStep "primary_role" acc.1.primaryRole evt ∧
    (evFold acc evt).1.primaryCompany =
      outerStep "primary_company" acc.1.primaryCompany evt ∧
    (evFold acc evt).1.preferredContactStyle = acc.1.preferredContactStyle ∧
    (evFold acc evt).2 =
      (match evt.extractedFacts with
       | none => []
       | some facts => facts.filterMap factTopicVal).foldl ciStep1 acc.2 := by
  unfold evFold outerStep
  cases hf : evt.extractedFacts with
  | none => exact ⟨rfl, rfl, rfl, rfl⟩
  | some facts => exact factsFold_proj facts acc

theorem eventsFold_proj (events : List PendingEvent) :
    ∀ acc : Profile × List String × List String,
      ((events.foldl evFold acc).1.primaryRole =
        events.foldl (outerStep "primary_role") acc.1.primaryRole) ∧
      ((events.foldl evFold acc).1.primaryCompany =
        events.foldl (outerStep "primary_company") acc.1.primaryCompany) ∧
      ((events.foldl evFold acc).1.preferredContactStyle =
        acc.1.preferredContactStyle) ∧
      ((events.foldl evFold acc).2 =
        (topicFactValues events).foldl ciStep1 acc.2) := by
  induction events with
  | nil => intro acc; exact ⟨rfl, rfl, rfl, rfl⟩
  | cons evt evts ih =>
      intro acc
      obtain ⟨s1, s2, s3, s4⟩ := evFold_spec acc evt
      obtain ⟨i1, i2, i3, i4⟩ := ih (evFold acc evt)
      refine ⟨?_, ?_, ?_, ?_⟩
      · simp only [List.foldl_cons]
        rw [i1, s1]
      · simp only [List.foldl_cons]
        rw [i2, s2]
      · simp only [List.foldl_cons]
        rw [i3, s3]
      · simp only [List.foldl_cons]
        rw [i4, s4, topicFactValues_cons, List.foldl_append]

theorem lfvStep_oor (field : String) (a : Option String) (f : ExtractedFact) :
    lfvStep field a f = oor (lfvStep field none f) a := by
  unfold lfvStep oor
  split
  · cases hv : asText f.newValue <;> simp [hv]
  · rfl

theorem factsFold_lfv_oor (field : String) (facts : List ExtractedFact) :
    ∀ a, facts.foldl (lfvStep field) a =
      oor (facts.foldl (lfvStep field) none) a := by
  induction facts with
  | nil => intro a; rfl
  | cons f fs ih =>
      intro a
      simp only [List.foldl_cons]
      rw [ih (lfvStep field a f), ih (lfvStep field none f), oor_assoc,
        lfvStep_oor]

theorem outerStep_oor (field : String) (a : Option String) (evt : PendingEvent) :
    outerStep field a evt = oor (outerStep field none evt) a := by
  unfold outerStep
  cases hf : evt.extractedFacts with
  | none => rfl
  | some facts => exact factsFold_lfv_oor field facts a

theorem eventsFold_lfv_oor (field : String) (events : List PendingEvent) :
    ∀ a, events.foldl (outerStep field) a =
      oor (events.foldl (outerStep field) none) a := by
  induction events with
  | nil => intro a; rfl
  | cons evt evts ih =>
      intro a
      simp only [List.foldl_cons]
      rw [ih (outerStep field a evt), ih (outerStep field none evt), oor_assoc,
        outerStep_oor]

theorem mergeContactStyle_proj (p : Profile) (st : StyleState) :
    (mergeContactStyleStateIntoProfile p st).primaryRole = p.primaryRole ∧
    (mergeContactStyleStateIntoProfile p st).primaryCompany = p.primaryCompany ∧
    (mergeContactStyleStateIntoProfile p st).preferredContactStyle =
      oor (asText st.value) p.preferredContactStyle ∧
    (mergeContactStyleStateIntoProfile p st).notableTopics = p.notableTopics := by
  unfold mergeContactStyleStateIntoProfile
  cases h : asText st.value <;> simp [h, oor]

theorem mergeProfileOverrides_eq (p : Profile) (ov : ProfileOverrides) :
    mergeProfileOverridesIntoProfile p ov =
      { p with
        primaryRole := oor (asText ov.primaryRole) p.primaryRole
        primaryCompany := oor (asText ov.primaryCompany) p.primaryCompany
        notableTopics := overrideStageTopics p.notableTopics ov } := by
  unfold mergeProfileOverridesIntoProfile overrideStageTopics
  by_cases he : overridesIsEmpty ov = true
  · have hparts : ov.primaryRole = none ∧ ov.primaryCompany = none ∧
        ov.notableTopics = [] := by
      unfold overridesIsEmpty at he
      simp only [Bool.and_eq_true, Option.isNone_iff_eq_none,
        List.isEmpty_iff] at he
      exact ⟨he.1.1, he.1.2, he.2⟩
    simp [he, hparts.1, hparts.2.1, hparts.2.2, oor, asText]
  · cases hr : asText ov.primaryRole <;> cases hc : asText ov.primaryCompany <;>
      by_cases ht : (sanitizeNotableTopics ov.notableTopics 10).isEmpty = true <;>
        simp [he, hr, hc, ht, oor, ciUnionCappedBy]

theorem applyPendingProfileEvents_spec (p : Profile)
    (events : List PendingEvent) :
    (applyPendingProfileEvents p events).primaryRole =
      oor (lastFactValue events "primary_role") p.primaryRole ∧
    (applyPendingProfileEvents p events).primaryCompany =
      oor (lastFactValue events "primary_company") p.primaryCompany ∧
    (applyPendingProfileEvents p events).preferredContactStyle =
      p.preferredContactStyle ∧
    (applyPendingProfileEvents p events).notableTopics =
      eventsStageTopics p.notableTopics events := by
  by_cases he : events.isEmpty = true
  · have hnil : events = [] := List.isEmpty_iff.mp he
    subst hnil
    exact ⟨rfl, rfl, rfl, rfl⟩
  · have hunf : applyPendingProfileEvents p events =
        { (events.foldl evFold (p, sanitizeNotableTopics p.notableTopics 10,
            (sanitizeNotableTopics p.notableTopics 10).map lowerStr)).1 with
          notableTopics :=
            ((events.foldl evFold (p, sanitizeNotableTopics p.notableTopics 10,
              (sanitizeNotableTopics p.notableTopics 10).map lowerStr)).2.1).take 10 } := by
      unfold applyPendingProfileEvents
      rw [if_neg he]
      rfl
    obtain ⟨e1, e2, e3, e4⟩ := eventsFold_proj events
      (p, sanitizeNotableTopics p.notableTopics 10,
        (sanitizeNotableTopics p.notableTopics 10).map lowerStr)
    refine ⟨?_, ?_, ?_, ?_⟩
    · rw [hunf]
      show (events.foldl evFold (p, sanitizeNotableTopics p.notableTopics 10,
          (sanitizeNotableTopics p.notableTopics 10).map lowerStr)).1.primaryRole = _
      rw [e1, eventsFold_lfv_oor, ← lastFactValue_eq_foldl]
    · rw [hunf]
      show (events.foldl evFold (p, sanitizeNotableTopics p.notableTopics 10,
          (sanitizeNotableTopics p.notableTopics 10).map lowerStr)).1.primaryCompany = _
      rw [e2, eventsFold_lfv_oor, ← lastFactValue_eq_foldl]
    · rw [hunf]
      show (events.foldl evFold (p, sanitizeNotableTopics p.notableTopics 10,
          (sanitizeNotableTopics p.notableTopics 10).map lowerStr)).1.preferredContactStyle = _
      rw [e3]
    · rw [hunf]
      show ((events.foldl evFold (p, sanitizeNotableTopics p.notableTopics 10,
          (sanitizeNotableTopics p.notableTopics 10).map lowerStr)).2.1).take 10 = _
      unfold eventsStageTopics
      rw [if_neg he, ciUnionBy_id_eq, e4]

/-- C7 counterexample: topics are not a pure case-insensitive union —
with ten base topics the override topic `fresh` survives sanitisation but
is dropped from the aggregate, because the override merge stops adding at
the ten-entry cap. -/
theorem claim_C7_aggregation_counterexample :
    sanitizeNotableTopics c7Ov.notableTopics 10 = ["fresh"] ∧
    (aggregateProfile c7Base defaultContactStyleState c7Ov emptyOverrides
        []).notableTopics =
      ["alpha", "bravo", "charlie", "delta", "echo",
       "foxtrot", "golf", "hotel", "india", "juliet"] ∧
    "fresh" ∉ ((aggregateProfile c7Base defaultContactStyleState c7Ov
        emptyOverrides []).notableTopics).map lowerStr := by
  refine ⟨by decide, by decide, by decide⟩

/-- C7 (amended): the aggregate applies base, then style, then durable
overrides (snapshot, or the reconciler fallback when the snapshot overlay
is absent), then pending events, and later layers win on the scalar
fields; `notable_topics`, however, is not a pure case-insensitive union:
the override layer unions sanitised lists only up to a ten-entry cap with
entries cut to 80 characters, and the event layer unions event topic
values onto the sanitised list and then truncates to ten. -/
theorem claim_C7_aggregation_amended (base : Profile) (st : StyleState)
    (sov rov : ProfileOverrides) (events : List PendingEvent) :
    (aggregateProfile base st sov rov events).primaryRole =
      oor (lastFactValue events "primary_role")
        (oor (asText (effectiveOverrides sov rov).primaryRole)
          base.primaryRole) ∧
    (aggregateProfile base st sov rov events).primaryCompany =
      oor (lastFactValue events "primary_company")
        (oor (asText (effectiveOverrides sov rov).primaryCompany)
          base.primaryCompany) ∧
    (aggregateProfile base st sov rov events).preferredContactStyle =
      oor (asText st.value) base.preferredContactStyle ∧
    (aggregateProfile base st sov rov events).notableTopics =
      eventsStageTopics
        (overrideStageTopics base.notableTopics (effectiveOverrides sov rov))
        events := by
  obtain ⟨s1, s2, s3, s4⟩ := mergeContactStyle_proj base st
  obtain ⟨a1, a2, a3, a4⟩ := applyPendingProfileEvents_spec
    (mergeProfileOverridesIntoProfile (mergeContactStyleStateIntoProfile base st)
      (effectiveOverrides sov rov)) events
  have hagg : aggregateProfile base st sov rov events =
      applyPendingProfileEvents
        (mergeProfileOverridesIntoProfile
          (mergeContactStyleStateIntoProfile base st)
          (effectiveOverrides sov rov)) events := rfl
  refine ⟨?_, ?_, ?_, ?_⟩
  · rw [hagg, a1]
    simp [mergeProfileOverrides_eq, s1]
  · rw [hagg, a2]
    simp [mergeProfileOverrides_eq, s2]
  · rw [hagg, a3]
    simp [mergeProfileOverrides_eq, s3]
  · rw [hagg, a4]
    simp [mergeProfileOverrides_eq, s4]

/-! ## C8: the in-batch duplicate guard -/

/-- A composer that renders the same reply for every row. -/
def c8Compose : Msg → String := fun _ => "hello"

/-- Claimed row in conversation 1. -/
def c8Row1 : Msg :=
  { id := 1, conversationId := 1, direction := .inbound, sentAt := 0, text := "hi"
    senderExternalId := "1", externalMessageId := some "e1"
    responseStatus := .sending, responseAttempts := 1, responseLastError := none
    responseAttemptedAt := some 0, respondedAt := none, responseExternalId := none }

/-- Claimed row in conversation 2. -/
def c8Row2 : Msg :=
  { id := 2, conversationId := 2, direction := .inbound, sentAt := 0, text := "yo"
    senderExternalId := "2", externalMessageId := some "e2"
    responseStatus := .sending, responseAttempts := 1, responseLastError := none
    responseAttemptedAt := some 0, respondedAt := none, responseExternalId := none }

/-- One batch run over the two rows with identical composed text. -/
def c8Run : BatchState × List (Msg × RowOutcome) :=
  processBatch c8Compose (fun _ => "prov") 5
    { db := [c8Row1, c8Row2], sigs := [], sends := [] } [c8Row1, c8Row2]

/-- C8 fails as stated: two queued rows from different conversations that
compose identical reply text are *both* sent — the second is not rejected,
and the batch delivers two sends with identical text.  The dispatched
signature is `(conversation_id, sender_external_id, sent_at, text)`, not
the text alone, so the guard only fires when the conversation, sender and
inbound timestamp also coincide. -/
theorem claim_C8_duplicate_guard_counterexample :
    c8Compose c8Row1 = c8Compose c8Row2 ∧
    c8Run.2 = [(c8Row1, .sent), (c8Row2, .sent)] ∧
    c8Run.1.sends = [(1, "hello"), (2, "hello")] := by decide

/-- How `processRow` changes the signature set: a sent row pushes its
fresh signature, every other outcome leaves the set unchanged. -/
theorem processRow_sigs (compose : Msg → String) (providerId : Nat → String)
    (now : Int) (st : BatchState) (r : Msg) :
    ((processRow compose providerId now st r).2 = .sent →
      (processRow compose providerId now st r).1.sigs =
        batchKey r (compose r) :: st.sigs ∧
      batchKey r (compose r) ∉ st.sigs) ∧
    ((processRow compose providerId now st r).2 ≠ .sent →
      (processRow compose providerId now st r).1.sigs = st.sigs) := by
  simp only [processRow]
  cases hp : parseExternalId r.senderExternalId with
  | none => simp
  | some peer =>
      by_cases h1 : alreadyAnsweredRecheck st.db r <;>
      by_cases h2 : batchKey r (compose r) ∈ st.sigs <;>
      by_cases h3 : dupTextAlreadySent st.db r (compose r) <;>
      simp [h1, h2, h3]

/-- The signatures of the rows a batch sends are fresh and pairwise
distinct. -/
theorem processBatch_sentKeys (compose : Msg → String) (providerId : Nat → String)
    (now : Int) :
    ∀ (rows : List Msg) (st : BatchState),
      (∀ k ∈ sentKeys compose (processBatch compose providerId now st rows).2,
        k ∉ st.sigs) ∧
      (sentKeys compose (processBatch compose providerId now st rows).2).Nodup := by
  intro rows
  induction rows with
  | nil => intro st; simp [processBatch, sentKeys]
  | cons r rest ih =>
      intro st
      have hrow := processRow_sigs compose providerId now st r
      obtain ⟨ihFresh, ihNodup⟩ := ih (processRow compose providerId now st r).1
      by_cases hs : (processRow compose providerId now st r).2 = .sent
      · obtain ⟨hsig, hfresh⟩ := hrow.1 hs
        have hkeys : sentKeys compose (processBatch compose providerId now st (r :: rest)).2 =
            batchKey r (compose r) ::
              sentKeys compose
                (processBatch compose providerId now
                  (processRow compose providerId now st r).1 rest).2 := by
          simp [processBatch, sentKeys, hs]
        rw [hkeys]
        constructor
        · intro k hk
          rcases List.mem_cons.mp hk with h | h
          · subst h; exact hfresh
          · have := ihFresh k h
            rw [hsig] at this
            exact fun hc => this (List.mem_cons_of_mem _ hc)
        · refine List.nodup_cons.mpr ⟨?_, ihNodup⟩
          intro hc
          have := ihFresh _ hc
          rw [hsig] at this
          exact this (List.mem_cons_self _ _)
      · have hsig := hrow.2 hs
        have hkeys : sentKeys compose (processBatch compose providerId now st (r :: rest)).2 =
            sentKeys compose
              (processBatch compose providerId now
                (processRow compose providerId now st r).1 rest).2 := by
          simp [processBatch, sentKeys, hs]
        rw [hkeys, ← hsig]
        exact ⟨ihFresh, ihNodup⟩

/-- C8 amended: the in-batch guard keys on the full dispatched signature
`(conversation_id, sender_external_id, sent_at, composed text)`: a row
whose signature was already dispatched in this batch is rejected (marked
`not_applicable`, skipped), and consequently no single batch ever
produces two sends with identical signature — but identical composed
text alone, across different conversations, is not rejected. -/
theorem claim_C8_duplicate_guard_amended (compose : Msg → String)
    (providerId : Nat → String) (now : Int) :
    (∀ (st : BatchState) (r : Msg) (peer : Nat),
      parseExternalId r.senderExternalId = some peer →
      alreadyAnsweredRecheck st.db r = false →
      batchKey r (compose r) ∈ st.sigs →
      processRow compose providerId now st r =
        ({ st with db := markNotApplicable st.db r.id "duplicate_text_in_same_batch" now },
         .skippedDupBatch)) ∧
    (∀ (db : List Msg) (rows : List Msg),
      (sentKeys compose
        (processBatch compose providerId now
          { db := db, sigs := [], sends := [] } rows).2).Nodup) := by
  constructor
  · intro st r peer hp hre hk
    unfold processRow
    rw [hp]
    simp [hre, hk]
  · intro db rows
    exact (processBatch_sentKeys compose providerId now rows
      { db := db, sigs := [], sends := [] }).2

/-- Witness for the amended C8: a concrete batch where the second row
repeats the first row's full signature and is rejected, while `c8Run`
above shows distinct conversations are not deduplicated. -/
theorem claim_C8_duplicate_guard_amended_witness :
    processRow c8Compose (fun _ => "prov") 5
      { db := [c8Row1], sigs := [(1, "1", 0, "hello")], sends := [(1, "hello")] } c8Row1 =
      ({ db := markNotApplicable [c8Row1] 1 "duplicate_text_in_same_batch" 5,
         sigs := [(1, "1", 0, "hello")], sends := [(1, "hello")] },
       .skippedDupBatch) ∧
    (sentKeys c8Compose
      (processBatch c8Compose (fun _ => "prov") 5
        { db := [c8Row1, c8Row2], sigs := [], sends := [] } [c8Row1, c8Row2]).2).Nodup := by
  refine ⟨(claim_C8_duplicate_guard_amended c8Compose (fun _ => "prov") 5).1
      { db := [c8Row1], sigs := [(1, "1", 0, "hello")], sends := [(1, "hello")] }
      c8Row1 1 (by decide) (by decide) (by decide),
    (claim_C8_duplicate_guard_amended c8Compose (fun _ => "prov") 5).2
      [c8Row1, c8Row2] [c8Row1, c8Row2]⟩

/-! ## C9: onboarding scenario B -/

/-- The pending extraction event the first turn (`role: Engineer`)
persists. -/
def c9RoleEvent : PendingEvent :=
  { id := 1, sourceMessageId := some 101, confidence := some 1,
    extractedFacts := some [{ field := "primary_role", newValue := some "Engineer",
                              confidence := some 1 }] }

/-- The in-memory profile view at the second onboarding turn: a fresh
profile aggregated with turn 1's pending role event, then overlaid with
turn 2's captured `company: Acme` update, as `render_onboarding_flow_reply`
does before recomputing the missing fields. -/
def c9Turn2Profile : Profile :=
  applyCapturedUpdatesToProfile
    (aggregateProfile emptyProfile defaultContactStyleState emptyOverrides emptyOverrides
      [c9RoleEvent])
    (inlineFieldValueLineUpdates "company: Acme")

/-- C9: after `role: Engineer` and `company: Acme` arrive in two separate
turns, the inline parser captures exactly those two fields, the profile
view holds both values, the recomputed missing-field list is exactly
`[notable_topics, preferred_contact_style]`, and the prompting tail of
the onboarding flow prompts for the topics slot (the first missing field
in the fixed order), for every onboarding state and message id. -/
theorem claim_C9_onboarding_scenario_b :
    inlineFieldValueLineUpdates "role: Engineer" = [("primary_role", "Engineer")] ∧
    inlineFieldValueLineUpdates "company: Acme" = [("primary_company", "Acme")] ∧
    c9Turn2Profile.primaryRole = some "Engineer" ∧
    c9Turn2Profile.primaryCompany = some "Acme" ∧
    computeMissingOnboardingFields c9Turn2Profile onboardingRequiredFields =
      ["notable_topics", "preferred_contact_style"] ∧
    ∀ (st : OnboardingState) (msgId : Nat) (sender persona : String) (now : Int),
      (onboardingPromptTail st onboardingRequiredFields
          (computeMissingOnboardingFields c9Turn2Profile onboardingRequiredFields)
          (inlineFieldValueLineUpdates "company: Acme") "company: Acme"
          false false msgId sender persona now).2.lastPromptedField =
        some "notable_topics" ∧
      (onboardingPromptTail st onboardingRequiredFields
          (computeMissingOnboardingFields c9Turn2Profile onboardingRequiredFields)
          (inlineFieldValueLineUpdates "company: Acme") "company: Acme"
          false false msgId sender persona now).1 =
        "Captured: company -> Acme.\nProgress: 2/4 fields captured.\nStep 3/4: " ++
          onboardingSlotPrompt "notable_topics" (msgId + 2 + st.turns) ∧
      onboardingSlotPrompt "notable_topics" (msgId + 2 + st.turns) ∈
        onboardingSlotQuestions "notable_topics" := by
  have hmiss : computeMissingOnboardingFields c9Turn2Profile onboardingRequiredFields =
      ["notable_topics", "preferred_contact_style"] := by decide
  have hcap : inlineFieldValueLineUpdates "company: Acme" =
      [("primary_company", "Acme")] := by decide
  have hack : isOnboardingAcknowledgement "company: Acme" = false := by decide
  refine ⟨by decide, hcap, by decide, by decide, hmiss, ?_⟩
  intro st msgId sender persona now
  rw [hmiss, hcap]
  refine ⟨?_, ?_, ?_⟩
  · simp [onboardingPromptTail, hack]
  · simp only [onboardingPromptTail, hack, Bool.false_and, if_false, List.isEmpty_cons,
      List.length_cons, List.length_nil, List.headD]
    norm_num
    congr 1
  · have hlen : (onboardingSlotQuestions "notable_topics").length = 2 := by decide
    have hne : ¬ (onboardingSlotQuestions "notable_topics").isEmpty := by decide
    simp only [onboardingSlotPrompt, pick, hne, Bool.false_eq_true, if_false]
    rw [List.getD_eq_getElem _ _ (by rw [hlen]; exact Nat.mod_lt _ (by norm_num))]
    exact List.getElem_mem _

/-! ## C5: confidence-gated style mutation -/

/-- A turn carrying a style hint of confidence `3/10` — below the default
confirm threshold `11/20` — against a fresh style state, with the default
thresholds. -/
def c5Step1 : StyleState × StyleOutcome :=
  renderResponseStyleStep (11/20) (4/5) defaultContactStyleState
    "make it casual" (some "casual") (some (3/10)) false false false (some 1) 0

/-- The follow-up affirmative turn against the state `c5Step1` left. -/
def c5Step2 : StyleState × StyleOutcome :=
  renderResponseStyleStep (11/20) (4/5) c5Step1.1 "yes" none none
    false false false (some 2) 1

/-- C5 fails as stated: with the default thresholds (confirm `11/20`,
auto-apply `4/5`), a style candidate of confidence `3/10` — strictly below
the confirm threshold — is *not* discarded as noise: it is stored as the
pending candidate, and a subsequent affirmative reply makes it the active
`preferred_contact_style`.  The source gates only on the auto-apply
threshold; the confirm threshold never filters candidates (it only picks
the wording of the confirmation prompt via `style_confidence_band`). -/
theorem claim_C5_style_gating_counterexample :
    dmContactStyleConfirmThreshold none none = 11/20 ∧
    dmContactStyleAutoApplyThreshold none = 4/5 ∧
    (3 : ℚ)/10 < 11/20 ∧
    c5Step1.1.pendingCandidate =
      some { value := "casual", confidence := some (3/10),
             source := some "dm_responder_low_confidence", sourceMessageId := some 1,
             proposedAt := some 0 } ∧
    c5Step2.1.value = some "casual" ∧
    c5Step2.1.confidence = some (3/10) := by
  have h1 : asText (some "casual") = some "casual" := by decide
  have hle : ¬ ((4:ℚ)/5 ≤ 3/10) := by norm_num
  have hstep1 : c5Step1.1 =
      { defaultContactStyleState with
        resolutionRule := styleConflictResolutionRule
        pendingCandidate := some
          { value := "casual", confidence := some (3/10),
            source := some "dm_responder_low_confidence", sourceMessageId := some 1,
            proposedAt := some 0 } } := by
    simp [c5Step1, renderResponseStyleStep, styleStepUpdatePart, defaultContactStyleState,
      persistPendingContactStyleCandidate, h1, hle]
  have hyes : isStyleConfirmationYes "yes" = true := by decide
  have hval : asTextS "casual" = some "casual" := by decide
  have hstep2 : c5Step2.1.value = some "casual" ∧ c5Step2.1.confidence = some (3/10) := by
    rw [show c5Step2 = renderResponseStyleStep (11/20) (4/5) c5Step1.1 "yes" none none
        false false false (some 2) 1 from rfl, hstep1]
    simp [renderResponseStyleStep, persistContactStyleState, defaultContactStyleState,
      hyes, hval, h1]
  refine ⟨by norm_num [dmContactStyleConfirmThreshold, dmContactStyleAutoApplyThreshold,
      envFloat],
    by norm_num [dmContactStyleAutoApplyThreshold, envFloat],
    by norm_num, by rw [hstep1], hstep2.1, hstep2.2⟩

/-- C5 amended: a candidate at or above the auto-apply threshold becomes
the active style immediately with no confirmation; *every* candidate
below the auto-apply threshold — including those below the confirm
threshold, which are not discarded — is stored as the pending candidate,
leaves the active style unchanged, and triggers a confirmation prompt; a
stored pending candidate becomes active exactly on an explicit
affirmative reply, is cleared (leaving the style unchanged) on an
explicit negative reply, and is otherwise left pending untouched. -/
theorem claim_C5_style_gating_amended (confirmThr autoThr : ℚ) (st : StyleState)
    (txt u nu : String) (conf : ℚ) (msgId : Option Nat) (now : Int) :
    (st.pendingCandidate = none → asTextS u = some nu → autoThr ≤ conf →
      (renderResponseStyleStep confirmThr autoThr st txt (some u) (some conf)
          false false false msgId now).1.value = some nu ∧
      (renderResponseStyleStep confirmThr autoThr st txt (some u) (some conf)
          false false false msgId now).1.pendingCandidate = none ∧
      (renderResponseStyleStep confirmThr autoThr st txt (some u) (some conf)
          false false false msgId now).2 = .autoApplied nu conf) ∧
    (st.pendingCandidate = none → asTextS u = some nu → conf < autoThr →
      (renderResponseStyleStep confirmThr autoThr st txt (some u) (some conf)
          false false false msgId now).1.pendingCandidate =
        some { value := nu, confidence := some conf,
               source := some "dm_responder_low_confidence",
               sourceMessageId := msgId, proposedAt := some now } ∧
      (renderResponseStyleStep confirmThr autoThr st txt (some u) (some conf)
          false false false msgId now).1.value = st.value ∧
      (renderResponseStyleStep confirmThr autoThr st txt (some u) (some conf)
          false false false msgId now).2 =
        .pendingPrompt nu conf
          (renderStyleConfirmationPrompt confirmThr autoThr nu (some conf))) ∧
    (∀ pc pv su ec, st.pendingCandidate = some pc → asTextS pc.value = some pv →
      isStyleConfirmationYes txt = true →
      (renderResponseStyleStep confirmThr autoThr st txt su ec
          false false false msgId now).1.value = some pv ∧
      (renderResponseStyleStep confirmThr autoThr st txt su ec
          false false false msgId now).1.pendingCandidate = none ∧
      (renderResponseStyleStep confirmThr autoThr st txt su ec
          false false false msgId now).2 = .confirmedSwitch pv) ∧
    (∀ pc pv su ec, st.pendingCandidate = some pc → asTextS pc.value = some pv →
      isStyleConfirmationYes txt = false → isStyleConfirmationNo txt = true →
      (renderResponseStyleStep confirmThr autoThr st txt su ec
          false false false msgId now).1.pendingCandidate = none ∧
      (renderResponseStyleStep confirmThr autoThr st txt su ec
          false false false msgId now).1.value = st.value ∧
      (renderResponseStyleStep confirmThr autoThr st txt su ec
          false false false msgId now).2 = .declinedSwitch) ∧
    (∀ pc pv, st.pendingCandidate = some pc → asTextS pc.value = some pv →
      isStyleConfirmationYes txt = false → isStyleConfirmationNo txt = false →
      (renderResponseStyleStep confirmThr autoThr st txt none none
          false false false msgId now).1 = st ∧
      (renderResponseStyleStep confirmThr autoThr st txt none none
          false false false msgId now).2 = .noStyleAction) := by
  refine ⟨?_, ?_, ?_, ?_, ?_⟩
  · intro hpend hu hconf
    have hu' : asText (some u) = some nu := hu
    have hnu : asText (some nu) = some nu := asTextS_idem hu
    simp [renderResponseStyleStep, hpend, styleStepUpdatePart, hu', hconf,
      persistContactStyleState, hnu]
  · intro hpend hu hconf
    have hu' : asText (some u) = some nu := hu
    have hnu : asText (some nu) = some nu := asTextS_idem hu
    have hlt : ¬ autoThr ≤ conf := not_le.mpr hconf
    simp [renderResponseStyleStep, hpend, styleStepUpdatePart, hu', hlt,
      persistPendingContactStyleCandidate, hnu]
  · intro pc pv su ec hpend hpv hyes
    have hnv : asText (some pv) = some pv := asTextS_idem hpv
    simp [renderResponseStyleStep, hpend, hpv, hyes, persistContactStyleState, hnv]
  · intro pc pv su ec hpend hpv hyes hno
    simp [renderResponseStyleStep, hpend, hpv, hyes, hno,
      clearPendingContactStyleCandidate]
  · intro pc pv hpend hpv hyes hno
    simp [renderResponseStyleStep, hpend, hpv, hyes, hno, styleStepUpdatePart, asText]

/-- Witness for the amended C5: concrete auto-application at confidence
`1` with threshold `0`, and concrete pending-candidate storage at
confidence `0` with threshold `1` (integral thresholds keep the rational
arithmetic kernel-computable). -/
theorem claim_C5_style_gating_amended_witness :
    (renderResponseStyleStep 0 0 defaultContactStyleState "hello" (some "concise")
        (some 1) false false false (some 3) 5).1.value = some "concise" ∧
    (renderResponseStyleStep 0 1 defaultContactStyleState "hello" (some "concise")
        (some 0) false false false (some 3) 5).1.pendingCandidate =
      some { value := "concise", confidence := some 0,
             source := some "dm_responder_low_confidence",
             sourceMessageId := some 3, proposedAt := some 5 } := by
  refine ⟨((claim_C5_style_gating_amended 0 0 defaultContactStyleState "hello"
      "concise" "concise" 1 (some 3) 5).1 rfl (by decide) (by norm_num)).1,
    ((claim_C5_style_gating_amended 0 1 defaultContactStyleState "hello"
      "concise" "concise" 0 (some 3) 5).2.1 rfl (by decide) (by norm_num)).1⟩

/-- Witness for C6 at a concrete cap, stored state and day. -/
theorem claim_C6_spend_fuse_witness :
    openrouterSpendFuseAllowsCall 1 .timedOut ⟨"2026-10-12", some 2⟩ "2026-10-12" = false ∧
    openrouterSpendFuseAllowsCall 1 .acquired ⟨"2026-10-12", some 2⟩ "2026-10-12" = false ∧
    openrouterSpendFuseAllowsCall 1 .acquired ⟨"2026-10-11", some 2⟩ "2026-10-12" = true := by
  refine ⟨(claim_C6_spend_fuse 1 ⟨"2026-10-12", some 2⟩ "2026-10-12" (by norm_num)).1,
    (claim_C6_spend_fuse 1 ⟨"2026-10-12", some 2⟩ "2026-10-12" (by norm_num)).2.1
      rfl (by norm_num) .acquired,
    (claim_C6_spend_fuse 1 ⟨"2026-10-11", some 2⟩ "2026-10-12" (by norm_num)).2.2.1
      (by decide)⟩

end DmResponder
